import Mathlib

/-!
# Titlekey unwrapping (exosphere/titlekey.c)

A shallow embedding of `src/exosphere/titlekey.c` and the properties of it
that the specification states.

Conventions of the embedding.

* A byte is a `Nat`; a buffer is a `List Nat`.  The only arithmetic the code
  performs on bytes is XOR and comparison, and the XOR of two values below 256
  is below 256 (`calculate_mgf1_and_xor_bytes`), so no truncation is needed.
* A pointer into a buffer is the suffix of the buffer that starts at the
  pointed-to byte (`message + 1` is `message.drop 1`); a call that writes
  through the pointer returns the suffix after the call, and the caller puts it
  back in place (`message.take 1 ++ salt`).
* `panic()` does not return: a function that can reach it returns `Option`,
  and `none` is the panic.
* `se_calculate_sha256`, `mkey_get_keyslot`, the AES block cipher and the
  constants `MASTERKEY_REVISION_MAX` and `KEYSLOT_SWITCH_TEMPKEY` are declared in
  headers that are not part of the sources; they are parameters.  The two
  key-slot operations of se.h that `tkey_aes_unwrap` calls are modelled from
  the specification.
* Array accesses are total (`getD`, `set`).  A second embedding, the
  definitions named `..._checked`, checks each access against the length of
  its buffer; on buffers of their declared sizes it agrees with the first
  (`tkey_rsa_unwrap_checked_ok`, `calculate_mgf1_and_xor_checked_ok`).
-/

namespace Titlekey

/-! ## Memory helpers -/

/-- C `memcpy(dst, src, n)`: the first `n` bytes of `dst` are replaced by the
first `n` bytes of `src`. -/
def memcpy (dst src : List Nat) (n : Nat) : List Nat :=
  src.take n ++ dst.drop n

/-! ## `calculate_mgf1_and_xor` (titlekey.c, lines 26-62) -/

/-- Lines 55-58: `for (i = 0; i < cur_size; i++) { *p_out ^= cur_hash[i]; p_out++; }`.
The state is the memory at `masked` and the index `p_out` into it. -/
def mgf1_xor_chunk (cur_hash : List Nat) (cur_size : Nat) (st : List Nat × Nat) :
    List Nat × Nat :=
  (List.range cur_size).foldl
    (fun st i => (st.1.set st.2 (st.1.getD st.2 0 ^^^ cur_hash.getD i 0), st.2 + 1)) st

/-- Lines 40-61: the `while (masked_size)` loop.  `round` is a `uint32_t`, so
`round++` wraps at `2 ^ 32`; `cache_flush` changes no value. -/
def mgf1_loop (se_calculate_sha256 : List Nat → List Nat) (seed_size hash_buf_size : Nat)
    (hash_buf : List Nat) (round : Nat) (st : List Nat × Nat) (masked_size : Nat) :
    List Nat :=
  if h : masked_size = 0 then st.1 else
    let cur_size := if masked_size > 0x20 then 0x20 else masked_size
    let hash_buf := hash_buf.set (seed_size + 0) ((round >>> 24) &&& 0xFF)
    let hash_buf := hash_buf.set (seed_size + 1) ((round >>> 16) &&& 0xFF)
    let hash_buf := hash_buf.set (seed_size + 2) ((round >>> 8) &&& 0xFF)
    let hash_buf := hash_buf.set (seed_size + 3) ((round >>> 0) &&& 0xFF)
    let round := (round + 1) % 2 ^ 32
    let cur_hash := se_calculate_sha256 (hash_buf.take hash_buf_size)
    let st := mgf1_xor_chunk cur_hash cur_size st
    mgf1_loop se_calculate_sha256 seed_size hash_buf_size hash_buf round st
      (masked_size - cur_size)
termination_by masked_size
decreasing_by
  simp only [gt_iff_lt]
  split <;> omega

/-- The function `calculate_mgf1_and_xor(masked, masked_size, seed, seed_size)`.
`masked` and `seed` are the memory at the two pointers; the result is the
memory at `masked` after the call, `none` when the function panics.  The
`hash_buf` array has 0xE4 bytes; its initial content is never hashed. -/
def calculate_mgf1_and_xor (se_calculate_sha256 : List Nat → List Nat)
    (masked : List Nat) (masked_size : Nat) (seed : List Nat) (seed_size : Nat) :
    Option (List Nat) :=
  if seed_size ≥ 0xE0 then none else
    let hash_buf_size := seed_size + 4
    let hash_buf := memcpy (List.replicate 0xE4 0) seed seed_size
    some (mgf1_loop se_calculate_sha256 seed_size hash_buf_size hash_buf 0 (masked, 0)
      masked_size)

/-- The 4-byte big-endian encoding of a counter (of its low 32 bits). -/
def be32 (i : Nat) : List Nat :=
  [i / 2 ^ 24 % 256, i / 2 ^ 16 % 256, i / 2 ^ 8 % 256, i % 256]

/-- Byte `k` of the mask as the code computes it: byte `k % 32` of the digest of
round `k / 32` (a digest byte is read from the 32-byte buffer `cur_hash`). -/
def mgf1_mask (hash : List Nat → List Nat) (seed : List Nat) (L : Nat) : List Nat :=
  (List.range L).map (fun k => (hash (seed ++ be32 (k / 32))).getD (k % 32) 0)

/-! ## Globals (titlekey.c, lines 9-23) -/

/-- The two globals of the file.  `g_tkey_expected_db_prefix` is declared
`uint64_t [4]`; it is held as its 32 bytes of storage, which is how line 91
reads it (through a `uint8_t *`). -/
structure TkeyGlobals where
  g_tkey_expected_db_prefix : List Nat
  g_tkey_master_key_rev : Nat
deriving DecidableEq, Repr

/-- The state at start-up: the array is zero-initialised and the revision is
`MASTERKEY_REVISION_MAX` (line 10). -/
def tkey_initial (MASTERKEY_REVISION_MAX : Nat) : TkeyGlobals :=
  { g_tkey_expected_db_prefix := List.replicate 0x20 0
    g_tkey_master_key_rev := MASTERKEY_REVISION_MAX }

/-- The function `tkey_set_expected_db_prefix(db_prefix)`, lines 13-17: four
8-byte words are copied, word `i` being the bytes `8 * i .. 8 * i + 7`. -/
def tkey_set_expected_db_prefix ( db_prefix : List Nat) (g : TkeyGlobals) : TkeyGlobals :=
  { g with
    g_tkey_expected_db_prefix :=
      (List.range 4).foldl
        (fun a i => a.take (8 * i) ++ memcpy (a.drop (8 * i)) (List.drop (8 * i) db_prefix) 8)
        (TkeyGlobals.g_tkey_expected_db_prefix g) }

/-- The function `tkey_set_master_key_rev(master_key_rev)`, lines 19-23: the
body is the range check alone; there is no assignment to
`g_tkey_master_key_rev`. -/
def tkey_set_master_key_rev (MASTERKEY_REVISION_MAX : Nat) (master_key_rev : Nat)
    (g : TkeyGlobals) : Option TkeyGlobals :=
  if master_key_rev ≥ MASTERKEY_REVISION_MAX then none else some g

/-! ## `tkey_rsa_unwrap` (titlekey.c, lines 64-138) -/

/-- What a call of `tkey_rsa_unwrap` leaves behind: the returned `size_t` and
the two buffers (`src` is unmasked in place). -/
structure RsaUnwrap where
  ret : Nat
  dst : List Nat
  src : List Nat
deriving DecidableEq, Repr

/-- Lines 117-127: the `while (wrapped_key_offset_in_db < 0xBF)` loop.  `db` is
the memory at the advanced pointer; the result is the offset at which the loop
is left, `none` for the `return 0` inside it. -/
def tkey_locate (db : List Nat) (wrapped_key_offset_in_db : Nat) : Option Nat :=
  if h : wrapped_key_offset_in_db < 0xBF then
    if db.getD wrapped_key_offset_in_db 0 = 0 then
      tkey_locate db (wrapped_key_offset_in_db + 1)
    else if db.getD wrapped_key_offset_in_db 0 = 1 then
      some (wrapped_key_offset_in_db + 1)
    else
      none
  else some wrapped_key_offset_in_db
termination_by 0xBF - wrapped_key_offset_in_db

/-- Lines 98-137 of `tkey_rsa_unwrap`: the checks on the unmasked data block
and the copy.  `db` is the memory at `message + 0x21` and `message` the whole
buffer, which these lines no longer change. -/
def tkey_rsa_check ( expected_db_prefix : List Nat) (dst : List Nat) (dst_size : Nat)
    (message db : List Nat) : RsaUnwrap :=
  if (List.range 0x20).any (fun i => expected_db_prefix.getD i 0 != db.getD i 0) then
    ⟨0, dst, message⟩
  else
    -- db += 0x20
    let db := db.drop 0x20
    if db.getD 0 0 ≠ 0 then ⟨0, dst, message⟩ else
    match tkey_locate db 0 with
    | none => ⟨0, dst, message⟩
    | some wrapped_key_offset_in_db =>
      let wrapped_titlekey_size := 0xBF - wrapped_key_offset_in_db
      if wrapped_titlekey_size > dst_size ∨ wrapped_titlekey_size = 0 then
        ⟨0, dst, message⟩
      else
        ⟨wrapped_key_offset_in_db,
          memcpy dst (db.drop wrapped_key_offset_in_db) wrapped_titlekey_size, message⟩

/-- The function `tkey_rsa_unwrap(dst, dst_size, src, src_size)`; `none` is the
panic.  Lines 64-96 are here, lines 98-137 in `tkey_rsa_check`. -/
def tkey_rsa_unwrap (se_calculate_sha256 : List Nat → List Nat) (g : TkeyGlobals)
    (dst : List Nat) (dst_size : Nat) (src : List Nat) (src_size : Nat) : Option RsaUnwrap :=
  if src_size ≠ 0x100 then none else
  let message := src
  if message.getD 0 0 ≠ 0 then some ⟨0, dst, message⟩ else
  -- salt = message + 1, db = message + 0x21
  let expected_db_prefix := TkeyGlobals.g_tkey_expected_db_prefix g
  match calculate_mgf1_and_xor se_calculate_sha256 (message.drop 1) 0x20
      (message.drop 0x21) 0xDF with
  | none => none
  | some salt =>
    let message := message.take 1 ++ salt
    match calculate_mgf1_and_xor se_calculate_sha256 (message.drop 0x21) 0xDF
        (message.drop 1) 0x20 with
    | none => none
    | some db =>
      let message := message.take 0x21 ++ db
      some (tkey_rsa_check expected_db_prefix dst dst_size message db)

/-! ## `tkey_aes_unwrap` (titlekey.c, lines 140-155) -/

/-- Modelled from the spec: `decrypt_data_into_keyslot` of se.h, which is not
among the sources.  "Decrypt a fixed 16-byte constant under that master-key slot
into a scratch key slot": the destination slot receives the AES-ECB decryption
of the data under the key of the source slot; no other slot changes. -/
def decrypt_data_into_keyslot (aes_ecb_decrypt : List Nat → List Nat → List Nat)
    (keyslots : Nat → List Nat) (keyslot_dst keyslot_src : Nat) (wrapped_key : List Nat)
    (wrapped_key_size : Nat) : Nat → List Nat :=
  fun k =>
    if k = keyslot_dst then
      aes_ecb_decrypt (keyslots keyslot_src) (wrapped_key.take wrapped_key_size)
    else keyslots k

/-- Modelled from the spec: `se_aes_ecb_decrypt_block` of se.h, which is not
among the sources.  "`aes_ecb_decrypt(slot, ciphertext[16]) -> plaintext[16]`":
the block at `src` is decrypted under the key of the slot and written to `dst`. -/
def se_aes_ecb_decrypt_block (aes_ecb_decrypt : List Nat → List Nat → List Nat)
    (keyslots : Nat → List Nat) (keyslot : Nat) (dst : List Nat) (dst_size : Nat)
    (src : List Nat) (src_size : Nat) : List Nat :=
  memcpy dst (aes_ecb_decrypt (keyslots keyslot) (src.take src_size)) dst_size

/-- The machine state `tkey_aes_unwrap` can change: the key slots of the security
engine and the output buffer. -/
structure AesMachine where
  keyslots : Nat → List Nat
  dst : List Nat

/-- How a call ends, with the machine state at that point: `panic()` was
reached, or the function returned. -/
inductive Exit (σ : Type) where
  | panicked : σ → Exit σ
  | returned : σ → Exit σ

/-- Line 145-147: the constant `titlekek_source`. -/
def titlekek_source : List Nat :=
  [0x1E, 0xDC, 0x7B, 0x3B, 0x60, 0xE6, 0xB4, 0xD8, 0x78, 0xB8, 0x17, 0x15, 0x98, 0x5E, 0x62, 0x9B]

/-- The function `tkey_aes_unwrap(dst, dst_size, src, src_size)`.
`MASTERKEY_REVISION_MAX`, `KEYSLOT_SWITCH_TEMPKEY` and `mkey_get_keyslot` come
from headers that are not among the sources. -/
def tkey_aes_unwrap (MASTERKEY_REVISION_MAX KEYSLOT_SWITCH_TEMPKEY : Nat)
    (mkey_get_keyslot : Nat → Nat) (aes_ecb_decrypt : List Nat → List Nat → List Nat)
    (g : TkeyGlobals) (keyslots : Nat → List Nat)
    (dst : List Nat) (dst_size : Nat) (src : List Nat) (src_size : Nat) : Exit AesMachine :=
  if TkeyGlobals.g_tkey_master_key_rev g ≥ MASTERKEY_REVISION_MAX ∨ dst_size ≠ 0x10 ∨
      src_size ≠ 0x10 then
    Exit.panicked ⟨keyslots, dst⟩
  else
    let master_keyslot := mkey_get_keyslot (TkeyGlobals.g_tkey_master_key_rev g)
    let keyslots := decrypt_data_into_keyslot aes_ecb_decrypt keyslots
      KEYSLOT_SWITCH_TEMPKEY master_keyslot titlekek_source 0x10
    let dst := se_aes_ecb_decrypt_block aes_ecb_decrypt keyslots KEYSLOT_SWITCH_TEMPKEY
      dst 0x10 src 0x10
    Exit.returned ⟨keyslots, dst⟩

/-! ## The MGF1 reference of the specification -/

/-- The specification's mask: `hash (seed || be32 0) || hash (seed || be32 1) || ...`,
truncated to `L` bytes. -/
def mgf1_reference (hash : List Nat → List Nat) (seed : List Nat) (L : Nat) : List Nat :=
  (((List.range ((L + 31) / 32)).map (fun i => hash (seed ++ be32 i))).flatten).take L

/-- Byte-wise XOR of two byte strings. -/
def xor_bytes (a b : List Nat) : List Nat :=
  List.zipWith (fun x y => x ^^^ y) a b

/-! ## The wrapped message of the specification -/

/-- The message the specification builds from a salt (32 bytes) and a data block
(223 bytes): `0x00 || maskedSalt || maskedDB` with `maskedDB = DB xor MGF1(salt)`
and `maskedSalt = salt xor MGF1(maskedDB)`. -/
def wrap_message (hash : List Nat → List Nat) (salt DB : List Nat) : List Nat :=
  let maskedDB := xor_bytes DB (mgf1_reference hash salt 0xDF)
  let maskedSalt := xor_bytes salt (mgf1_reference hash maskedDB 0x20)
  0x00 :: (maskedSalt ++ maskedDB)

/-- The salt of a 256-byte message: `maskedSalt xor MGF1(maskedDB)`. -/
def unmasked_salt (hash : List Nat → List Nat) (message : List Nat) : List Nat :=
  xor_bytes ((message.drop 1).take 0x20) (mgf1_reference hash (message.drop 0x21) 0x20)

/-- The data block of a 256-byte message: `maskedDB xor MGF1(salt)`. -/
def unmasked_db (hash : List Nat → List Nat) (message : List Nat) : List Nat :=
  xor_bytes (message.drop 0x21) (mgf1_reference hash (unmasked_salt hash message) 0xDF)

/-- The data block `expected_prefix || 00 .. 00 || 01 || c` of the specification,
223 bytes for a ciphertext `c` of at most 190 bytes. -/
def data_block ( expected_db_prefix c : List Nat) : List Nat :=
  expected_db_prefix ++ List.replicate (0xBE - c.length) 0 ++ [0x01] ++ c

/-! ## Test doubles for the hardware -/

/-- A software stand-in for the hash engine: a 32-byte digest that depends on
every byte of the input and on its position in the digest. -/
def toy_hash (m : List Nat) : List Nat :=
  (List.range 0x20).map (fun i => (m.foldl (fun a b => 3 * a + b) 5 + 7 * i) % 256)

/-- A software stand-in for AES-ECB decryption of one block: 16 bytes. -/
def toy_aes (key block : List Nat) : List Nat :=
  (List.range 0x10).map (fun i => key.getD i 0 ^^^ block.getD i 0 ^^^ 0x5A)


/-- The specification's reference for `tkey_aes_unwrap`: derive the constant
`1E DC 7B 3B 60 E6 B4 D8 78 B8 17 15 98 5E 62 9B` under the master key, then
AES-ECB-decrypt the wrapped block under the derived key. -/
def titlekey_reference (aes_ecb_decrypt : List Nat → List Nat → List Nat)
    (master_key wrapped : List Nat) : List Nat :=
  aes_ecb_decrypt
    (aes_ecb_decrypt master_key
      [0x1E, 0xDC, 0x7B, 0x3B, 0x60, 0xE6, 0xB4, 0xD8,
       0x78, 0xB8, 0x17, 0x15, 0x98, 0x5E, 0x62, 0x9B])
    wrapped

/-- A 32-byte expected prefix for the examples. -/
def toy_expected_db : List Nat :=
  (List.range 0x20).map (fun i => (5 * i + 1) % 256)

/-- A 32-byte salt for the examples. -/
def toy_salt : List Nat :=
  (List.range 0x20).map (fun i => (11 * i + 3) % 256)

/-- Globals for the examples: the prefix is set, the revision is 4. -/
def toy_globals : TkeyGlobals :=
  { g_tkey_expected_db_prefix := toy_expected_db
    g_tkey_master_key_rev := 4 }

/-- Key slots for the examples: slot `k` holds sixteen bytes `k`. -/
def toy_keyslots (k : Nat) : List Nat :=
  List.replicate 0x10 (k % 256)
set_option maxRecDepth 100000

/-- A 7-byte ciphertext for the examples, with a 0x01 and zero bytes inside and a
zero byte at its end. -/
def toy_ciphertext : List Nat :=
  [0xDE, 0xAD, 0x00, 0x01, 0xBE, 0xEF, 0x00]

/-- A well-formed 256-byte message for the examples: the specification's
wrapping of `toy_ciphertext` (the separator is at position 183 of the 191 bytes
after the prefix). -/
def toy_message : List Nat :=
  wrap_message toy_hash toy_salt (data_block toy_expected_db toy_ciphertext)

/-! ## The rejection paths of `tkey_rsa_unwrap` -/

/-- The ways `tkey_rsa_unwrap` returns 0, read off its `return 0` statements and
stated on the unmasked data block, `R` being the 191 bytes after its prefix:
line 83 (leading byte), lines 99-103 (prefix), line 112 (no zero byte at
position 0), line 125 (padding), line 132 after the loop ran to the end (no
separator), line 132 after a separator (nothing after it, or more than
`dst_size`). -/
def tkey_rejects (hash : List Nat → List Nat) (g : TkeyGlobals) (dst_size : Nat)
    (src : List Nat) : Prop :=
  src.getD 0 0 ≠ 0 ∨
  (unmasked_db hash src).take 0x20 ≠ TkeyGlobals.g_tkey_expected_db_prefix g ∨
  ((unmasked_db hash src).drop 0x20).getD 0 0 ≠ 0 ∨
  (∃ k, k < 0xBF ∧ (∀ j, j < k → ((unmasked_db hash src).drop 0x20).getD j 0 = 0) ∧
    ((unmasked_db hash src).drop 0x20).getD k 0 ≠ 0 ∧
    ((unmasked_db hash src).drop 0x20).getD k 0 ≠ 1) ∨
  (∀ j, j < 0xBF → ((unmasked_db hash src).drop 0x20).getD j 0 = 0) ∨
  (∃ k, k < 0xBF ∧ (∀ j, j < k → ((unmasked_db hash src).drop 0x20).getD j 0 = 0) ∧
    ((unmasked_db hash src).drop 0x20).getD k 0 = 1 ∧
    (0xBE - k = 0 ∨ dst_size < 0xBE - k))

/-! ## Sequences of calls on the globals -/

/-- A call of one of the three functions of the file that take no key slot:
`tkey_set_expected_db_prefix`, `tkey_set_master_key_rev`, `tkey_rsa_unwrap`,
with its arguments. -/
inductive TkeyCall where
  | expected_db (bytes : List Nat)
  | master_key_rev (master_key_rev : Nat)
  | rsa_unwrap (dst : List Nat) (dst_size : Nat) (src : List Nat) (src_size : Nat)

/-- The globals after one call, `none` when the call panics.  `tkey_rsa_unwrap`
reads `g_tkey_expected_db_prefix` and writes no global. -/
def tkey_call (MASTERKEY_REVISION_MAX : Nat) (se_calculate_sha256 : List Nat → List Nat)
    (g : TkeyGlobals) : TkeyCall → Option TkeyGlobals
  | TkeyCall.expected_db bytes => some ( tkey_set_expected_db_prefix bytes g)
  | TkeyCall.master_key_rev master_key_rev =>
    tkey_set_master_key_rev MASTERKEY_REVISION_MAX master_key_rev g
  | TkeyCall.rsa_unwrap dst dst_size src src_size =>
    (tkey_rsa_unwrap se_calculate_sha256 g dst dst_size src src_size).map (fun _ => g)

/-- The globals after a sequence of calls, `none` when one of them panics. -/
def tkey_calls (MASTERKEY_REVISION_MAX : Nat) (se_calculate_sha256 : List Nat → List Nat) :
    TkeyGlobals → List TkeyCall → Option TkeyGlobals
  | g, [] => some g
  | g, c :: cs =>
    match tkey_call MASTERKEY_REVISION_MAX se_calculate_sha256 g c with
    | none => none
    | some g1 => tkey_calls MASTERKEY_REVISION_MAX se_calculate_sha256 g1 cs

/-! ## The embedding with bounds-checked accesses

The same code once more, with every array access checked against the length
of the buffer it goes to.  Buffers have their declared sizes: the message 256
bytes, `hash_buf` 0xE4, `cur_hash` 0x20 (the digest), the expected prefix
0x20, `dst` `dst_size`. -/

/-- How a run of the checked embedding fails: `panic()` was called, or an index
outside its buffer was used. -/
inductive Fault where
  | panic
  | out_of_range
deriving DecidableEq, Repr

/-- The read `buf[i]`. -/
def load (buf : List Nat) (i : Nat) : Except Fault Nat :=
  if i < buf.length then Except.ok (buf.getD i 0) else Except.error Fault.out_of_range

/-- The write `buf[i] = v`. -/
def store (buf : List Nat) (i v : Nat) : Except Fault (List Nat) :=
  if i < buf.length then Except.ok (buf.set i v) else Except.error Fault.out_of_range

/-- C `memcpy(dst, src, n)` with both ranges checked. -/
def memcpy_checked (dst src : List Nat) (n : Nat) : Except Fault (List Nat) :=
  if n ≤ dst.length ∧ n ≤ src.length then Except.ok (memcpy dst src n)
  else Except.error Fault.out_of_range

/-- Lines 55-58, checked: `cur_hash[i]` is read, `*p_out` is read and written. -/
def mgf1_xor_chunk_checked (cur_hash : List Nat) (cur_size : Nat) (st : List Nat × Nat) :
    Except Fault (List Nat × Nat) :=
  (List.range cur_size).foldlM
    (fun st i => do
      let h ← load cur_hash i
      let b ← load st.1 st.2
      let masked ← store st.1 st.2 (b ^^^ h)
      pure (masked, st.2 + 1)) st

/-- Lines 40-61, checked: four writes to `hash_buf`, the read of
`hash_buf[0 .. hash_buf_size)` by the hash engine, and the XOR loop. -/
def mgf1_loop_checked (se_calculate_sha256 : List Nat → List Nat)
    (seed_size hash_buf_size : Nat) (hash_buf : List Nat) (round : Nat) (st : List Nat × Nat)
    (masked_size : Nat) : Except Fault (List Nat) :=
  if masked_size = 0 then Except.ok st.1 else
    let cur_size := if masked_size > 0x20 then 0x20 else masked_size
    match store hash_buf (seed_size + 0) ((round >>> 24) &&& 0xFF) with
    | Except.error e => Except.error e
    | Except.ok hash_buf =>
    match store hash_buf (seed_size + 1) ((round >>> 16) &&& 0xFF) with
    | Except.error e => Except.error e
    | Except.ok hash_buf =>
    match store hash_buf (seed_size + 2) ((round >>> 8) &&& 0xFF) with
    | Except.error e => Except.error e
    | Except.ok hash_buf =>
    match store hash_buf (seed_size + 3) ((round >>> 0) &&& 0xFF) with
    | Except.error e => Except.error e
    | Except.ok hash_buf =>
    let round := (round + 1) % 2 ^ 32
    if hash_buf_size > hash_buf.length then Except.error Fault.out_of_range else
    let cur_hash := se_calculate_sha256 (hash_buf.take hash_buf_size)
    match mgf1_xor_chunk_checked cur_hash cur_size st with
    | Except.error e => Except.error e
    | Except.ok st =>
      mgf1_loop_checked se_calculate_sha256 seed_size hash_buf_size hash_buf round st
        (masked_size - cur_size)
termination_by masked_size
decreasing_by
  simp only [gt_iff_lt]
  split <;> omega

/-- The function `calculate_mgf1_and_xor`, checked. -/
def calculate_mgf1_and_xor_checked (se_calculate_sha256 : List Nat → List Nat)
    (masked : List Nat) (masked_size : Nat) (seed : List Nat) (seed_size : Nat) :
    Except Fault (List Nat) :=
  if seed_size ≥ 0xE0 then Except.error Fault.panic else
    let hash_buf_size := seed_size + 4
    match memcpy_checked (List.replicate 0xE4 0) seed seed_size with
    | Except.error e => Except.error e
    | Except.ok hash_buf =>
      mgf1_loop_checked se_calculate_sha256 seed_size hash_buf_size hash_buf 0 (masked, 0)
        masked_size

/-- Lines 99-103, checked: `true` when a byte differs (the `return 0`); the
bytes after the first difference are not read. -/
def tkey_compare_checked ( expected_db_prefix : List Nat) (db : List Nat) (i : Nat) :
    Except Fault Bool :=
  if i < 0x20 then
    match load expected_db_prefix i with
    | Except.error e => Except.error e
    | Except.ok a =>
    match load db i with
    | Except.error e => Except.error e
    | Except.ok b =>
      if a != b then Except.ok true else tkey_compare_checked expected_db_prefix db (i + 1)
  else Except.ok false
termination_by 0x20 - i

/-- Lines 117-127, checked. -/
def tkey_locate_checked (db : List Nat) (wrapped_key_offset_in_db : Nat) :
    Except Fault (Option Nat) :=
  if wrapped_key_offset_in_db < 0xBF then
    match load db wrapped_key_offset_in_db with
    | Except.error e => Except.error e
    | Except.ok b =>
      if b = 0 then tkey_locate_checked db (wrapped_key_offset_in_db + 1)
      else if b = 1 then Except.ok (some (wrapped_key_offset_in_db + 1))
      else Except.ok none
  else Except.ok (some wrapped_key_offset_in_db)
termination_by 0xBF - wrapped_key_offset_in_db

/-- Lines 98-137, checked. -/
def tkey_rsa_check_checked ( expected_db_prefix : List Nat) (dst : List Nat) (dst_size : Nat)
    (message db : List Nat) : Except Fault RsaUnwrap :=
  match tkey_compare_checked expected_db_prefix db 0 with
  | Except.error e => Except.error e
  | Except.ok true => Except.ok ⟨0, dst, message⟩
  | Except.ok false =>
    -- db += 0x20
    let db := db.drop 0x20
    match load db 0 with
    | Except.error e => Except.error e
    | Except.ok b =>
    if b ≠ 0 then Except.ok ⟨0, dst, message⟩ else
    match tkey_locate_checked db 0 with
    | Except.error e => Except.error e
    | Except.ok none => Except.ok ⟨0, dst, message⟩
    | Except.ok (some wrapped_key_offset_in_db) =>
      let wrapped_titlekey_size := 0xBF - wrapped_key_offset_in_db
      if wrapped_titlekey_size > dst_size ∨ wrapped_titlekey_size = 0 then
        Except.ok ⟨0, dst, message⟩
      else
        match memcpy_checked dst (db.drop wrapped_key_offset_in_db) wrapped_titlekey_size with
        | Except.error e => Except.error e
        | Except.ok dst => Except.ok ⟨wrapped_key_offset_in_db, dst, message⟩

/-- The function `tkey_rsa_unwrap`, checked. -/
def tkey_rsa_unwrap_checked (se_calculate_sha256 : List Nat → List Nat) (g : TkeyGlobals)
    (dst : List Nat) (dst_size : Nat) (src : List Nat) (src_size : Nat) :
    Except Fault RsaUnwrap :=
  if src_size ≠ 0x100 then Except.error Fault.panic else
  let message := src
  match load message 0 with
  | Except.error e => Except.error e
  | Except.ok b =>
  if b ≠ 0 then Except.ok ⟨0, dst, message⟩ else
  -- salt = message + 1, db = message + 0x21
  let expected_db_prefix := TkeyGlobals.g_tkey_expected_db_prefix g
  match calculate_mgf1_and_xor_checked se_calculate_sha256 (message.drop 1) 0x20
      (message.drop 0x21) 0xDF with
  | Except.error e => Except.error e
  | Except.ok salt =>
    let message := message.take 1 ++ salt
    match calculate_mgf1_and_xor_checked se_calculate_sha256 (message.drop 0x21) 0xDF
        (message.drop 1) 0x20 with
    | Except.error e => Except.error e
    | Except.ok db =>
      let message := message.take 0x21 ++ db
      tkey_rsa_check_checked expected_db_prefix dst dst_size message db

/-! ## Lemmas on `calculate_mgf1_and_xor` -/

theorem mgf1_xor_chunk_spec (h : List Nat) (n : Nat) (st : List Nat × Nat)
    (hb : st.2 + n ≤ st.1.length) :
    (mgf1_xor_chunk h n st).2 = st.2 + n ∧
    (mgf1_xor_chunk h n st).1.length = st.1.length ∧
    ∀ j, (mgf1_xor_chunk h n st).1.getD j 0 =
      if st.2 ≤ j ∧ j < st.2 + n then st.1.getD j 0 ^^^ h.getD (j - st.2) 0
      else st.1.getD j 0 := by
  induction n with
  | zero =>
    simp only [mgf1_xor_chunk, List.range_zero, List.foldl_nil, Nat.add_zero, true_and]
    intro j
    rw [if_neg (by omega)]
  | succ n ih =>
    obtain ⟨ih1, ih2, ih3⟩ := ih (by omega)
    unfold mgf1_xor_chunk at ih1 ih2 ih3 ⊢
    rw [List.range_succ, List.foldl_append]
    simp only [List.foldl_cons, List.foldl_nil]
    refine ⟨by rw [ih1]; omega, by rw [List.length_set, ih2], ?_⟩
    intro j
    rw [ih1, ih3 (st.2 + n), if_neg (by omega), List.getD_eq_getElem?_getD (List.set _ _ _),
      List.getElem?_set, ih2]
    by_cases hj : st.2 + n = j
    · subst hj
      rw [if_pos rfl, if_pos (by omega), if_pos (by omega), Nat.add_sub_cancel_left]
      rfl
    · rw [if_neg hj, ← List.getD_eq_getElem?_getD, ih3]
      by_cases h1 : st.2 ≤ j ∧ j < st.2 + n
      · rw [if_pos h1, if_pos (by omega)]
      · rw [if_neg h1, if_neg (by omega)]

theorem be32_of_shifts (r : Nat) :
    [(r >>> 24) &&& 0xFF, (r >>> 16) &&& 0xFF, (r >>> 8) &&& 0xFF, (r >>> 0) &&& 0xFF] = be32 r := by
  have e : ∀ x : Nat, x &&& 0xFF = x % 256 := fun x => Nat.and_pow_two_sub_one_eq_mod x 8
  simp only [be32, e, Nat.shiftRight_eq_div_pow, Nat.pow_zero, Nat.div_one]

theorem be32_wrap (r k : Nat) : be32 ((r + 1) % 2 ^ 32 + k) = be32 (r + 1 + k) := by
  simp only [be32]
  norm_num
  omega

theorem hash_buf_round (hb S : List Nat) (s a b c d : Nat) (hlen : s + 4 ≤ hb.length)
    (hS : hb.take s = S) :
    let hb2 := (((hb.set (s + 0) a).set (s + 1) b).set (s + 2) c).set (s + 3) d
    hb2.take (s + 4) = S ++ [a, b, c, d] ∧ hb2.take s = S ∧ hb2.length = hb.length := by
  intro hb2
  have hSlen : S.length = s := by rw [← hS, List.length_take]; omega
  refine ⟨?_, ?_, by simp [hb2]⟩
  · apply List.ext_getElem?
    intro i
    by_cases hi : i < s
    · have : S[i]? = hb[i]? := by rw [← hS, List.getElem?_take_of_lt hi]
      rw [List.getElem?_append_left (by omega), this]
      simp only [hb2]
      rw [List.getElem?_take_of_lt (by omega)]
      simp only [List.getElem?_set]
      simp [show ¬ s + 3 = i by omega, show ¬ s + 2 = i by omega, show ¬ s + 1 = i by omega,
        show ¬ s  = i by omega]
    · rw [List.getElem?_append_right (by omega), hSlen]
      by_cases hi4 : i < s + 4
      · rw [List.getElem?_take_of_lt hi4]
        simp only [hb2, List.getElem?_set, List.length_set]
        obtain h | h | h | h : i = s ∨ i = s + 1 ∨ i = s + 2 ∨ i = s + 3 := by omega
        all_goals (subst h; simp; try omega)
      · rw [List.getElem?_eq_none (by simp; omega), List.getElem?_eq_none (by simp; omega)]
  · rw [← hS]
    simp only [hb2]
    apply List.ext_getElem?
    intro i
    by_cases hi : i < s
    · rw [List.getElem?_take_of_lt hi, List.getElem?_take_of_lt hi]
      simp only [List.getElem?_set]
      simp [show ¬ s + 3 = i by omega, show ¬ s + 2 = i by omega, show ¬ s + 1 = i by omega,
        show ¬ s  = i by omega]
    · rw [List.getElem?_eq_none (by simp; omega), List.getElem?_eq_none (by simp; omega)]

theorem mgf1_loop_spec (hash : List Nat → List Nat) (s : Nat) (S : List Nat) :
    ∀ (n : Nat) (hb : List Nat) (round : Nat) (st : List Nat × Nat),
      s + 4 ≤ hb.length → hb.take s = S → st.2 + n ≤ st.1.length →
      (mgf1_loop hash s (s + 4) hb round st n).length = st.1.length ∧
      ∀ j, (mgf1_loop hash s (s + 4) hb round st n).getD j 0 =
        if st.2 ≤ j ∧ j < st.2 + n then
          st.1.getD j 0 ^^^ (hash (S ++ be32 (round + (j - st.2) / 32))).getD ((j - st.2) % 32) 0
        else st.1.getD j 0 := by
  intro n
  induction n using Nat.strong_induction_on with
  | _ n ih =>
    intro hb round st hlen hS hst
    rw [mgf1_loop]
    by_cases hn : n = 0
    · subst hn
      simp only [dite_true, true_and]
      intro j
      rw [if_neg (by omega)]
    · simp only [dif_neg hn]
      obtain ⟨hb1, hb2, hb3⟩ := hash_buf_round hb S s ((round >>> 24) &&& 0xFF)
        ((round >>> 16) &&& 0xFF) ((round >>> 8) &&& 0xFF) ((round >>> 0) &&& 0xFF) hlen hS
      rw [hb1, be32_of_shifts]
      generalize hc : (if n > 0x20 then 0x20 else n) = c
      have hc1 : 0 < c ∧ c ≤ n ∧ c ≤ 32 ∧ (n ≤ 32 → c = n) ∧ (32 < n → c = 32) := by
        subst hc; split <;> omega
      obtain ⟨x1, x2, x3⟩ := mgf1_xor_chunk_spec (hash (S ++ be32 round)) c st (by omega)
      obtain ⟨r1, r2⟩ := ih (n - c) (by omega) _ ((round + 1) % 2 ^ 32)
        (mgf1_xor_chunk (hash (S ++ be32 round)) c st) (by rw [hb3]; exact hlen) hb2
        (by rw [x1, x2]; omega)
      refine ⟨by rw [r1, x2], ?_⟩
      intro j
      rw [r2 j, x1, x3 j]
      by_cases h1 : st.2 + c ≤ j ∧ j < st.2 + c + (n - c)
      · have hc32 : c = 32 := by omega
        subst hc32
        rw [if_pos h1, if_neg (by omega), if_pos (by omega), be32_wrap]
        have e1 : round + 1 + (j - (st.2 + 32)) / 32 = round + (j - st.2) / 32 := by omega
        have e2 : (j - (st.2 + 32)) % 32 = (j - st.2) % 32 := by omega
        rw [e1, e2]
      · rw [if_neg h1]
        by_cases h2 : st.2 ≤ j ∧ j < st.2 + c
        · rw [if_pos h2, if_pos (by omega)]
          have e1 : (j - st.2) / 32 = 0 := by omega
          have e2 : (j - st.2) % 32 = j - st.2 := by omega
          rw [e1, e2, Nat.add_zero]
        · rw [if_neg h2, if_neg (by omega)]

theorem list_eq_of_getD (a b : List Nat) (hl : a.length = b.length)
    (h : ∀ j, j < a.length → a.getD j 0 = b.getD j 0) : a = b := by
  apply List.ext_getElem hl
  intro n h1 h2
  have := h n h1
  rwa [List.getD_eq_getElem _ _ h1, List.getD_eq_getElem _ _ h2] at this

theorem mgf1_mask_length (hash : List Nat → List Nat) (seed : List Nat) (L : Nat) :
    (mgf1_mask hash seed L).length = L := by
  simp [mgf1_mask]

theorem mgf1_mask_getD (hash : List Nat → List Nat) (seed : List Nat) (L j : Nat) (hj : j < L) :
    (mgf1_mask hash seed L).getD j 0 = (hash (seed ++ be32 (j / 32))).getD (j % 32) 0 := by
  rw [List.getD_eq_getElem _ _ (by rw [mgf1_mask_length]; exact hj)]
  simp [mgf1_mask]

theorem xor_bytes_length (a b : List Nat) : (xor_bytes a b).length = min a.length b.length := by
  simp [xor_bytes]

theorem xor_bytes_getD (a b : List Nat) (j : Nat) (ha : j < a.length) (hb : j < b.length) :
    (xor_bytes a b).getD j 0 = a.getD j 0 ^^^ b.getD j 0 := by
  rw [List.getD_eq_getElem _ _ (by rw [xor_bytes_length]; omega), List.getD_eq_getElem _ _ ha,
    List.getD_eq_getElem _ _ hb]
  simp [xor_bytes]

/-- Closed form of `calculate_mgf1_and_xor`: the first `masked_size` bytes at
`masked` are XORed with the mask of the first `seed_size` bytes at `seed`. -/
theorem calculate_mgf1_and_xor_eq (hash : List Nat → List Nat) (masked : List Nat)
    (masked_size : Nat) (seed : List Nat) (seed_size : Nat)
    (hs : seed_size < 0xE0) (hseed : seed_size ≤ seed.length)
    (hm : masked_size ≤ masked.length) :
    calculate_mgf1_and_xor hash masked masked_size seed seed_size =
      some (xor_bytes (masked.take masked_size)
        (mgf1_mask hash (seed.take seed_size) masked_size) ++ masked.drop masked_size) := by
  unfold calculate_mgf1_and_xor
  rw [if_neg (by omega)]
  simp only [Option.some.injEq]
  obtain ⟨h1, h2⟩ := mgf1_loop_spec hash seed_size (seed.take seed_size) masked_size
    (memcpy (List.replicate 0xE4 0) seed seed_size) 0 (masked, 0)
    (by simp only [memcpy, List.length_append, List.length_take, List.length_drop,
          List.length_replicate]; omega)
    (by simp only [memcpy]
        rw [List.take_append_of_le_length (by rw [List.length_take]; omega),
          List.take_take, Nat.min_self])
    (by simpa using hm)
  simp only [Nat.zero_le, true_and, Nat.zero_add, Nat.sub_zero] at h1 h2
  have hlen : (xor_bytes (masked.take masked_size)
      (mgf1_mask hash (seed.take seed_size) masked_size)).length = masked_size := by
    rw [xor_bytes_length, mgf1_mask_length, List.length_take]; omega
  apply list_eq_of_getD
  · rw [h1, List.length_append, hlen, List.length_drop]; omega
  · intro j _
    rw [h2 j]
    by_cases hj : j < masked_size
    · rw [if_pos hj, List.getD_append _ _ _ _ (by rw [hlen]; exact hj),
        xor_bytes_getD _ _ _ (by rw [List.length_take]; omega) (by rw [mgf1_mask_length]; exact hj),
        mgf1_mask_getD _ _ _ _ hj]
      congr 1
      simp [List.getD_eq_getElem?_getD, List.getElem?_take_of_lt hj]
    · rw [if_neg hj, List.getD_append_right _ _ _ _ (by rw [hlen]; omega), hlen]
      simp only [List.getD_eq_getElem?_getD, List.getElem?_drop]
      congr 2
      omega

theorem flatten_blocks (f : Nat → List Nat) (hf : ∀ i, (f i).length = 32) (B : Nat) :
    (((List.range B).map f).flatten).length = 32 * B ∧
    ∀ k, k < 32 * B → (((List.range B).map f).flatten).getD k 0 = (f (k / 32)).getD (k % 32) 0 := by
  induction B with
  | zero => simp
  | succ B ih =>
    obtain ⟨ih1, ih2⟩ := ih
    rw [List.range_succ, List.map_append, List.flatten_append]
    simp only [List.map_cons, List.map_nil, List.flatten_cons, List.flatten_nil, List.append_nil]
    refine ⟨by rw [List.length_append, ih1, hf]; omega, ?_⟩
    intro k hk
    by_cases h : k < 32 * B
    · rw [List.getD_append _ _ _ _ (by rw [ih1]; exact h), ih2 k h]
    · rw [List.getD_append_right _ _ _ _ (by rw [ih1]; omega), ih1]
      have e1 : k / 32 = B := by omega
      have e2 : k % 32 = k - 32 * B := by omega
      rw [e1, e2]

theorem mgf1_mask_eq_reference (hash : List Nat → List Nat)
    (hdig : ∀ m, (hash m).length = 0x20) (seed : List Nat) (L : Nat) :
    mgf1_mask hash seed L = mgf1_reference hash seed L := by
  obtain ⟨f1, f2⟩ := flatten_blocks (fun i => hash (seed ++ be32 i)) (fun i => hdig _)
    ((L + 31) / 32)
  have hl : (mgf1_reference hash seed L).length = L := by
    unfold mgf1_reference
    rw [List.length_take, f1]; omega
  apply list_eq_of_getD
  · rw [mgf1_mask_length, hl]
  · intro j hj
    rw [mgf1_mask_length] at hj
    rw [mgf1_mask_getD _ _ _ _ hj]
    unfold mgf1_reference
    rw [List.getD_eq_getElem?_getD (List.take _ _), List.getElem?_take_of_lt hj,
      ← List.getD_eq_getElem?_getD, f2 j (by omega)]

theorem xor_bytes_cancel (a m : List Nat) (h : a.length ≤ m.length) :
    xor_bytes (xor_bytes a m) m = a := by
  apply list_eq_of_getD
  · rw [xor_bytes_length, xor_bytes_length]; omega
  · intro j hj
    rw [xor_bytes_length, xor_bytes_length] at hj
    rw [xor_bytes_getD _ _ _ (by rw [xor_bytes_length]; omega) (by omega),
      xor_bytes_getD _ _ _ (by omega) (by omega), Nat.xor_assoc, Nat.xor_self, Nat.xor_zero]

theorem xor_bytes_lt (a b : List Nat) (ha : ∀ x ∈ a, x < 256) (hb : ∀ x ∈ b, x < 256) :
    ∀ x ∈ xor_bytes a b, x < 256 := by
  induction a generalizing b with
  | nil => intro x hx; simp [xor_bytes] at hx
  | cons u a ih =>
    cases b with
    | nil => intro x hx; simp [xor_bytes] at hx
    | cons v b =>
      intro x hx
      simp only [xor_bytes, List.zipWith_cons_cons, List.mem_cons] at hx
      rcases hx with hx | hx
      · subst hx
        exact Nat.xor_lt_two_pow (n := 8) (ha u (List.mem_cons_self _ _))
          (hb v (List.mem_cons_self _ _))
      · exact ih b (fun y hy => ha y (List.mem_cons_of_mem _ hy))
          (fun y hy => hb y (List.mem_cons_of_mem _ hy)) x hx

theorem mgf1_mask_lt (hash : List Nat → List Nat) (hb : ∀ m, ∀ x ∈ hash m, x < 256)
    (seed : List Nat) (L : Nat) : ∀ x ∈ mgf1_mask hash seed L, x < 256 := by
  intro x hx
  simp only [mgf1_mask, List.mem_map, List.mem_range] at hx
  obtain ⟨k, _, rfl⟩ := hx
  rw [List.getD_eq_getElem?_getD]
  cases h : (hash (seed ++ be32 (k / 32)))[k % 32]? with
  | none => simp
  | some v => exact hb _ v (List.getElem?_mem h)

/-- Bytes stay bytes: when the buffer and the digests hold values below 256, so
does the buffer after `calculate_mgf1_and_xor`. -/
theorem calculate_mgf1_and_xor_bytes (hash : List Nat → List Nat)
    (hb : ∀ m, ∀ x ∈ hash m, x < 256) (masked : List Nat) (masked_size : Nat)
    (seed : List Nat) (seed_size : Nat) (hs : seed_size < 0xE0) (hseed : seed_size ≤ seed.length)
    (hm : masked_size ≤ masked.length) (hmb : ∀ x ∈ masked, x < 256) (out : List Nat)
    (hout : calculate_mgf1_and_xor hash masked masked_size seed seed_size = some out) :
    ∀ x ∈ out, x < 256 := by
  rw [calculate_mgf1_and_xor_eq hash masked masked_size seed seed_size hs hseed hm] at hout
  cases hout
  intro x hx
  rw [List.mem_append] at hx
  rcases hx with hx | hx
  · exact xor_bytes_lt _ _ (fun y hy => hmb y (List.mem_of_mem_take hy))
      (mgf1_mask_lt hash hb _ _) x hx
  · exact hmb x (List.mem_of_mem_drop hx)

/-! ## Lemmas on the unmasking in `tkey_rsa_unwrap` -/

theorem mgf1_reference_length (hash : List Nat → List Nat)
    (hdig : ∀ m, (hash m).length = 0x20) (seed : List Nat) (L : Nat) :
    (mgf1_reference hash seed L).length = L := by
  rw [← mgf1_mask_eq_reference hash hdig, mgf1_mask_length]

theorem calculate_mgf1_and_xor_eq_reference (hash : List Nat → List Nat)
    (hdig : ∀ m, (hash m).length = 0x20) (seed buffer : List Nat) (hs : seed.length < 224) :
    calculate_mgf1_and_xor hash buffer buffer.length seed seed.length =
      some (xor_bytes buffer (mgf1_reference hash seed buffer.length)) := by
  rw [calculate_mgf1_and_xor_eq hash buffer buffer.length seed seed.length hs (le_refl _)
    (le_refl _), mgf1_mask_eq_reference hash hdig, List.take_length, List.take_length,
    List.drop_length, List.append_nil]

theorem unmasked_salt_length (hash : List Nat → List Nat)
    (hdig : ∀ m, (hash m).length = 0x20) (src : List Nat) (hlen : src.length = 0x100) :
    (unmasked_salt hash src).length = 0x20 := by
  unfold unmasked_salt
  rw [xor_bytes_length, mgf1_reference_length hash hdig, List.length_take, List.length_drop, hlen]
  rfl

theorem unmasked_db_length (hash : List Nat → List Nat)
    (hdig : ∀ m, (hash m).length = 0x20) (src : List Nat) (hlen : src.length = 0x100) :
    (unmasked_db hash src).length = 0xDF := by
  unfold unmasked_db
  rw [xor_bytes_length, mgf1_reference_length hash hdig, List.length_drop, hlen]
  rfl

/-- Line 94 on a 256-byte message: the salt field becomes the unmasked salt. -/
theorem unmask_salt_call (hash : List Nat → List Nat)
    (hdig : ∀ m, (hash m).length = 0x20) (src : List Nat) (hlen : src.length = 0x100) :
    calculate_mgf1_and_xor hash (src.drop 1) 0x20 (src.drop 0x21) 0xDF =
      some (unmasked_salt hash src ++ src.drop 0x21) := by
  rw [calculate_mgf1_and_xor_eq hash _ _ _ _ (by decide)
    (by rw [List.length_drop, hlen]) (by rw [List.length_drop, hlen]; decide)]
  rw [mgf1_mask_eq_reference hash hdig, List.drop_drop]
  have : (src.drop 0x21).take 0xDF = src.drop 0x21 :=
    List.take_of_length_le (by rw [List.length_drop, hlen])
  rw [this]
  rfl

/-- Line 96 after line 94: the data-block field becomes the unmasked block. -/
theorem unmask_db_call (hash : List Nat → List Nat)
    (hdig : ∀ m, (hash m).length = 0x20) (src : List Nat) (hlen : src.length = 0x100) :
    calculate_mgf1_and_xor hash ((src.take 1 ++ (unmasked_salt hash src ++ src.drop 0x21)).drop 0x21)
      0xDF ((src.take 1 ++ (unmasked_salt hash src ++ src.drop 0x21)).drop 1) 0x20 =
      some (unmasked_db hash src) := by
  have hs := unmasked_salt_length hash hdig src hlen
  have e1 : (src.take 1 ++ (unmasked_salt hash src ++ src.drop 0x21)).drop 1 =
      unmasked_salt hash src ++ src.drop 0x21 :=
    List.drop_left' (by rw [List.length_take, hlen]; rfl)
  have e2 : (src.take 1 ++ (unmasked_salt hash src ++ src.drop 0x21)).drop 0x21 =
      src.drop 0x21 := by
    rw [← List.append_assoc]
    exact List.drop_left' (by rw [List.length_append, List.length_take, hlen, hs]; rfl)
  rw [e1, e2, calculate_mgf1_and_xor_eq hash _ _ _ _ (by decide)
    (by rw [List.length_append, hs]; omega) (by rw [List.length_drop, hlen])]
  rw [mgf1_mask_eq_reference hash hdig, List.take_left' hs]
  have e3 : (src.drop 0x21).take 0xDF = src.drop 0x21 :=
    List.take_of_length_le (by rw [List.length_drop, hlen])
  have e4 : (src.drop 0x21).drop 0xDF = [] :=
    List.drop_of_length_le (by rw [List.length_drop, hlen])
  rw [e3, e4, List.append_nil]
  rfl

/-- What `tkey_rsa_unwrap` computes on a 256-byte message: lines 98-137 applied
to the unmasked data block. -/
theorem tkey_rsa_unwrap_eq (hash : List Nat → List Nat)
    (hdig : ∀ m, (hash m).length = 0x20) (g : TkeyGlobals) (dst : List Nat) (dst_size : Nat)
    (src : List Nat) (hlen : src.length = 0x100) (h0 : src.getD 0 0 = 0) :
    tkey_rsa_unwrap hash g dst dst_size src 0x100 =
      some (tkey_rsa_check (TkeyGlobals.g_tkey_expected_db_prefix g) dst dst_size
        (src.take 1 ++ unmasked_salt hash src ++ unmasked_db hash src)
        (unmasked_db hash src)) := by
  unfold tkey_rsa_unwrap
  rw [if_neg (by simp), if_neg (by rw [h0]; simp)]
  simp only [unmask_salt_call hash hdig src hlen, unmask_db_call hash hdig src hlen]
  congr 3
  rw [← List.append_assoc]
  exact List.take_left' (by
    rw [List.length_append, List.length_take, hlen, unmasked_salt_length hash hdig src hlen]; rfl)

/-- The specification's construction is undone by the specification's
unmasking: a wrapped message has 256 bytes, a zero first byte, and its salt and
data block are the ones it was built from. -/
theorem unmask_wrap_message (hash : List Nat → List Nat)
    (hdig : ∀ m, (hash m).length = 0x20) (salt DB : List Nat)
    (hs : salt.length = 0x20) (hd : DB.length = 0xDF) :
    (wrap_message hash salt DB).length = 0x100 ∧
    (wrap_message hash salt DB).getD 0 0 = 0 ∧
    unmasked_salt hash (wrap_message hash salt DB) = salt ∧
    unmasked_db hash (wrap_message hash salt DB) = DB := by
  have l1 : (xor_bytes DB (mgf1_reference hash salt 0xDF)).length = 0xDF := by
    rw [xor_bytes_length, mgf1_reference_length hash hdig, hd]; rfl
  have l2 : ∀ s, (xor_bytes salt (mgf1_reference hash s 0x20)).length = 0x20 := by
    intro s
    rw [xor_bytes_length, mgf1_reference_length hash hdig, hs]; rfl
  have d1 : (wrap_message hash salt DB).drop 0x21 = xor_bytes DB (mgf1_reference hash salt 0xDF) := by
    unfold wrap_message
    simp only [List.drop_succ_cons]
    exact List.drop_left' (l2 _)
  have d2 : ((wrap_message hash salt DB).drop 1).take 0x20 =
      xor_bytes salt (mgf1_reference hash (xor_bytes DB (mgf1_reference hash salt 0xDF)) 0x20) := by
    unfold wrap_message
    simp only [List.drop_succ_cons, List.drop_zero]
    exact List.take_left' (l2 _)
  have e1 : unmasked_salt hash (wrap_message hash salt DB) = salt := by
    unfold unmasked_salt
    rw [d1, d2]
    exact xor_bytes_cancel _ _ (by rw [mgf1_reference_length hash hdig, hs])
  refine ⟨?_, ?_, e1, ?_⟩
  · unfold wrap_message
    simp only [List.length_cons, List.length_append, l1, l2]
  · unfold wrap_message
    rfl
  · unfold unmasked_db
    rw [e1, d1]
    exact xor_bytes_cancel _ _ (by rw [mgf1_reference_length hash hdig, hd])

/-! ## Lemmas on lines 98-137 of `tkey_rsa_unwrap` -/

theorem tkey_locate_skip (db : List Nat) (k : Nat) :
    ∀ (n off : Nat), off + n = k → k ≤ 0xBF → (∀ j, off ≤ j → j < k → db.getD j 0 = 0) →
      tkey_locate db off = tkey_locate db k := by
  intro n
  induction n with
  | zero => intro off h _ _; rw [show off = k by omega]
  | succ n ih =>
    intro off h hk hz
    rw [tkey_locate, dif_pos (by omega), if_pos (hz off (by omega) (by omega))]
    exact ih (off + 1) (by omega) hk (fun j h1 h2 => hz j (by omega) h2)

theorem tkey_locate_one (db : List Nat) (k : Nat) (hk : k < 0xBF) (h1 : db.getD k 0 = 1) :
    tkey_locate db k = some (k + 1) := by
  rw [tkey_locate, dif_pos hk, if_neg (by rw [h1]; decide), if_pos h1]

theorem tkey_locate_bad (db : List Nat) (k : Nat) (hk : k < 0xBF) (h0 : db.getD k 0 ≠ 0)
    (h1 : db.getD k 0 ≠ 1) : tkey_locate db k = none := by
  rw [tkey_locate, dif_pos hk, if_neg h0, if_neg h1]

theorem tkey_locate_end (db : List Nat) : tkey_locate db 0xBF = some 0xBF := by
  rw [tkey_locate, dif_neg (by decide)]

theorem prefix_any_false (p db : List Nat) (h : ∀ i, i < 0x20 → p.getD i 0 = db.getD i 0) :
    (List.range 0x20).any (fun i => p.getD i 0 != db.getD i 0) = false := by
  rw [List.any_eq_false]
  intro i hi
  rw [List.mem_range] at hi
  rw [h i hi]
  rw [bne_self_eq_false (db.getD i 0)]
  exact Bool.false_ne_true

theorem prefix_any_true (p db : List Nat) (i : Nat) (hi : i < 0x20)
    (h : p.getD i 0 ≠ db.getD i 0) :
    (List.range 0x20).any (fun i => p.getD i 0 != db.getD i 0) = true := by
  rw [List.any_eq_true]
  exact ⟨i, List.mem_range.mpr hi, by simpa using h⟩

theorem getD_of_take_eq (p db : List Nat) (h : db.take 0x20 = p) (i : Nat) (hi : i < 0x20) :
    p.getD i 0 = db.getD i 0 := by
  rw [← h, List.getD_eq_getElem?_getD, List.getD_eq_getElem?_getD, List.getElem?_take_of_lt hi]

theorem exists_ne_of_take_ne (p db : List Nat) (hp : p.length = 0x20) (hdb : 0x20 ≤ db.length)
    (h : db.take 0x20 ≠ p) : ∃ i, i < 0x20 ∧ p.getD i 0 ≠ db.getD i 0 := by
  by_contra hcon
  apply h
  have hl : (db.take 0x20).length = p.length := by rw [List.length_take, hp]; omega
  apply list_eq_of_getD _ _ hl
  intro j hj
  rw [hl, hp] at hj
  have : p.getD j 0 = db.getD j 0 := by
    by_contra hne
    exact hcon ⟨j, hj, hne⟩
  rw [this, List.getD_eq_getElem?_getD, List.getD_eq_getElem?_getD, List.getElem?_take_of_lt hj]

/-- Lines 99-103: a byte of the block that differs from the expected prefix
ends the call with 0. -/
theorem tkey_rsa_check_prefix_mismatch (p dst : List Nat) (dst_size : Nat) (message db : List Nat)
    (i : Nat) (hi : i < 0x20) (h : p.getD i 0 ≠ db.getD i 0) :
    tkey_rsa_check p dst dst_size message db = ⟨0, dst, message⟩ := by
  unfold tkey_rsa_check
  rw [if_pos (prefix_any_true p db i hi h)]

/-- Line 111: a non-zero first byte after the prefix ends the call with 0. -/
theorem tkey_rsa_check_first_nonzero (p dst : List Nat) (dst_size : Nat) (message db : List Nat)
    (h : (db.drop 0x20).getD 0 0 ≠ 0) :
    tkey_rsa_check p dst dst_size message db = ⟨0, dst, message⟩ := by
  unfold tkey_rsa_check
  split
  · rfl
  · simp only
    rw [if_pos h]

/-- Lines 117-127: zero bytes, then a byte that is neither 0 nor 1. -/
theorem tkey_rsa_check_bad_padding (p dst : List Nat) (dst_size : Nat) (message db : List Nat)
    (k : Nat) (hk : k < 0xBF) (hz : ∀ j, j < k → (db.drop 0x20).getD j 0 = 0)
    (h0 : (db.drop 0x20).getD k 0 ≠ 0) (h1 : (db.drop 0x20).getD k 0 ≠ 1) :
    tkey_rsa_check p dst dst_size message db = ⟨0, dst, message⟩ := by
  unfold tkey_rsa_check
  split
  · rfl
  · simp only
    split
    · rfl
    · rw [tkey_locate_skip _ k k 0 (by omega) (by omega) (fun j _ hj => hz j hj),
        tkey_locate_bad _ k hk h0 h1]

/-- Lines 117-133: 191 zero bytes leave the loop at 0xBF, and the size 0 is
refused. -/
theorem tkey_rsa_check_no_separator (p dst : List Nat) (dst_size : Nat) (message db : List Nat)
    (hz : ∀ j, j < 0xBF → (db.drop 0x20).getD j 0 = 0) :
    tkey_rsa_check p dst dst_size message db = ⟨0, dst, message⟩ := by
  unfold tkey_rsa_check
  split
  · rfl
  · simp only
    split
    · rfl
    · rw [tkey_locate_skip _ 0xBF 0xBF 0 (by omega) (by omega) (fun j _ hj => hz j hj),
        tkey_locate_end]
      simp

/-- Lines 99-137 on a block that passes every check: the prefix matches, the
bytes after it are `k` zeros (`k ≥ 1`) and a 0x01, and the rest fits `dst`. -/
theorem tkey_rsa_check_accept (p dst : List Nat) (dst_size : Nat) (message db : List Nat)
    (hp : ∀ i, i < 0x20 → p.getD i 0 = db.getD i 0)
    (k : Nat) (hk0 : 0 < k) (hk : k < 0xBE) (hz : ∀ j, j < k → (db.drop 0x20).getD j 0 = 0)
    (h1 : (db.drop 0x20).getD k 0 = 1) (hsz : 0xBE - k ≤ dst_size) :
    tkey_rsa_check p dst dst_size message db =
      ⟨k + 1, memcpy dst ((db.drop 0x20).drop (k + 1)) (0xBE - k), message⟩ := by
  unfold tkey_rsa_check
  rw [if_neg (by rw [prefix_any_false p db hp]; simp)]
  simp only
  rw [if_neg (by rw [hz 0 hk0]; simp),
    tkey_locate_skip _ k k 0 (by omega) (by omega) (fun j _ hj => hz j hj),
    tkey_locate_one _ k (by omega) h1]
  simp only
  have e : 0xBF - (k + 1) = 0xBE - k := by omega
  rw [e, if_neg (by omega)]

/-! ## Lemmas on the test doubles and the data block -/

theorem toy_hash_length (m : List Nat) : (toy_hash m).length = 0x20 := by
  simp [toy_hash]

theorem toy_aes_length (k b : List Nat) : (toy_aes k b).length = 0x10 := by
  simp [toy_aes]

theorem wrap_message_take_one (hash : List Nat → List Nat) (salt DB : List Nat) :
    (wrap_message hash salt DB).take 1 = [0x00] := rfl

/-- The call on a 256-byte message never panics: it ends in line 83 or in
lines 98-137. -/
theorem tkey_rsa_unwrap_cases (hash : List Nat → List Nat)
    (hdig : ∀ m, (hash m).length = 0x20) (g : TkeyGlobals) (dst : List Nat) (dst_size : Nat)
    (src : List Nat) (hlen : src.length = 0x100) :
    tkey_rsa_unwrap hash g dst dst_size src 0x100 =
      some (if src.getD 0 0 ≠ 0 then ⟨0, dst, src⟩ else
        tkey_rsa_check (TkeyGlobals.g_tkey_expected_db_prefix g) dst dst_size
          (src.take 1 ++ unmasked_salt hash src ++ unmasked_db hash src)
          (unmasked_db hash src)) := by
  by_cases h0 : src.getD 0 0 ≠ 0
  · rw [if_pos h0]
    unfold tkey_rsa_unwrap
    rw [if_neg (by simp), if_pos h0]
  · rw [if_neg h0]
    exact tkey_rsa_unwrap_eq hash hdig g dst dst_size src hlen (by simpa using h0)

theorem data_block_length (p c : List Nat) (hp : p.length = 0x20) (hc : c.length ≤ 0xBE) :
    (data_block p c).length = 0xDF := by
  simp only [data_block, List.length_append, List.length_replicate, List.length_cons,
    List.length_nil, hp]
  omega

theorem data_block_getD_head (p c : List Nat) (hp : p.length = 0x20) (i : Nat) (hi : i < 0x20) :
    p.getD i 0 = (data_block p c).getD i 0 := by
  unfold data_block
  rw [List.append_assoc, List.append_assoc, List.getD_append _ _ _ _ (by rw [hp]; exact hi)]

theorem data_block_drop (p c : List Nat) (hp : p.length = 0x20) :
    (data_block p c).drop 0x20 = List.replicate (0xBE - c.length) 0 ++ ([0x01] ++ c) := by
  unfold data_block
  rw [List.append_assoc, List.append_assoc]
  exact List.drop_left' hp

/-! ## Lemmas for the case analysis of `tkey_rsa_unwrap` -/

theorem first_nonzero (R : List Nat) (n : Nat) :
    (∀ j, j < n → R.getD j 0 = 0) ∨
    ∃ k, k < n ∧ (∀ j, j < k → R.getD j 0 = 0) ∧ R.getD k 0 ≠ 0 := by
  induction n with
  | zero => exact Or.inl (fun j hj => absurd hj (Nat.not_lt_zero j))
  | succ n ih =>
    rcases ih with hz | ⟨k, hk, hz, hne⟩
    · by_cases hn : R.getD n 0 = 0
      · left
        intro j hj
        rcases Nat.lt_succ_iff_lt_or_eq.mp hj with h | h
        · exact hz j h
        · rw [h]; exact hn
      · exact Or.inr ⟨n, Nat.lt_succ_self n, hz, hn⟩
    · exact Or.inr ⟨k, Nat.lt_succ_of_lt hk, hz, hne⟩

/-- Lines 117-133: a separator is found, and what follows it is empty or does
not fit `dst_size`. -/
theorem tkey_rsa_check_size (p dst : List Nat) (dst_size : Nat) (message db : List Nat)
    (k : Nat) (hk : k < 0xBF) (hz : ∀ j, j < k → (db.drop 0x20).getD j 0 = 0)
    (h1 : (db.drop 0x20).getD k 0 = 1) (hsz : 0xBE - k = 0 ∨ dst_size < 0xBE - k) :
    tkey_rsa_check p dst dst_size message db = ⟨0, dst, message⟩ := by
  unfold tkey_rsa_check
  split
  · rfl
  · simp only
    split
    · rfl
    · rw [tkey_locate_skip _ k k 0 (by omega) (by omega) (fun j _ hj => hz j hj),
        tkey_locate_one _ k hk h1]
      simp only
      have e : 0xBF - (k + 1) = 0xBE - k := by omega
      rw [e, if_pos (by omega)]

/-- Every way through lines 98-137: the five ways to return 0, which leave `dst`
as it was, and the one way to succeed. -/
theorem tkey_rsa_check_cases (p dst : List Nat) (dst_size : Nat) (message db : List Nat) :
    (tkey_rsa_check p dst dst_size message db = ⟨0, dst, message⟩ ∧
      ((∃ i, i < 0x20 ∧ p.getD i 0 ≠ db.getD i 0) ∨
       (db.drop 0x20).getD 0 0 ≠ 0 ∨
       (∃ k, k < 0xBF ∧ (∀ j, j < k → (db.drop 0x20).getD j 0 = 0) ∧
          (db.drop 0x20).getD k 0 ≠ 0 ∧ (db.drop 0x20).getD k 0 ≠ 1) ∨
       (∀ j, j < 0xBF → (db.drop 0x20).getD j 0 = 0) ∨
       (∃ k, k < 0xBF ∧ (∀ j, j < k → (db.drop 0x20).getD j 0 = 0) ∧
          (db.drop 0x20).getD k 0 = 1 ∧ (0xBE - k = 0 ∨ dst_size < 0xBE - k)))) ∨
    (∃ k, 0 < k ∧ k < 0xBE ∧ (∀ i, i < 0x20 → p.getD i 0 = db.getD i 0) ∧
      (∀ j, j < k → (db.drop 0x20).getD j 0 = 0) ∧ (db.drop 0x20).getD k 0 = 1 ∧
      0xBE - k ≤ dst_size ∧
      tkey_rsa_check p dst dst_size message db =
        ⟨k + 1, memcpy dst ((db.drop 0x20).drop (k + 1)) (0xBE - k), message⟩) := by
  by_cases hp : ∀ i, i < 0x20 → p.getD i 0 = db.getD i 0
  · rcases first_nonzero (db.drop 0x20) 0xBF with hz | ⟨k, hk, hz, hne⟩
    · exact Or.inl ⟨tkey_rsa_check_no_separator p dst dst_size message db hz,
        Or.inr (Or.inr (Or.inr (Or.inl hz)))⟩
    · by_cases h1 : (db.drop 0x20).getD k 0 = 1
      · by_cases hsz : 0xBE - k = 0 ∨ dst_size < 0xBE - k
        · exact Or.inl ⟨tkey_rsa_check_size p dst dst_size message db k hk hz h1 hsz,
            Or.inr (Or.inr (Or.inr (Or.inr ⟨k, hk, hz, h1, hsz⟩)))⟩
        · by_cases hk0 : k = 0
          · subst hk0
            exact Or.inl ⟨tkey_rsa_check_first_nonzero p dst dst_size message db hne,
              Or.inr (Or.inl hne)⟩
          · exact Or.inr ⟨k, by omega, by omega, hp, hz, h1, by omega,
              tkey_rsa_check_accept p dst dst_size message db hp k (by omega) (by omega) hz h1
                (by omega)⟩
      · exact Or.inl ⟨tkey_rsa_check_bad_padding p dst dst_size message db k hk hz hne h1,
          Or.inr (Or.inr (Or.inl ⟨k, hk, hz, hne, h1⟩))⟩
  · have : ∃ i, i < 0x20 ∧ p.getD i 0 ≠ db.getD i 0 := by
      by_contra hcon
      exact hp (fun i hi => by
        by_contra hne
        exact hcon ⟨i, hi, hne⟩)
    obtain ⟨i, hi, hne⟩ := this
    exact Or.inl ⟨tkey_rsa_check_prefix_mismatch p dst dst_size message db i hi hne,
      Or.inl ⟨i, hi, hne⟩⟩

/-- The call on a message built by the specification: lines 98-137 run on the
data block the message was built from. -/
theorem tkey_rsa_unwrap_wrap (hash : List Nat → List Nat)
    (hdig : ∀ m, (hash m).length = 0x20) (g : TkeyGlobals) (dst : List Nat) (dst_size : Nat)
    (salt DB : List Nat) (hs : salt.length = 0x20) (hd : DB.length = 0xDF) :
    tkey_rsa_unwrap hash g dst dst_size (wrap_message hash salt DB) 0x100 =
      some (tkey_rsa_check (TkeyGlobals.g_tkey_expected_db_prefix g) dst dst_size
        (0x00 :: (salt ++ DB)) DB) := by
  obtain ⟨wl, w0, ws, wd⟩ := unmask_wrap_message hash hdig salt DB hs hd
  rw [tkey_rsa_unwrap_eq hash hdig g dst dst_size _ wl w0, ws, wd, wrap_message_take_one]
  rfl

/-- Whatever the hash and the length of the buffer, a call that returns ended in
line 83 or in lines 98-137. -/
theorem tkey_rsa_unwrap_some (hash : List Nat → List Nat) (g : TkeyGlobals) (dst : List Nat)
    (dst_size : Nat) (src : List Nat) (src_size : Nat) (r : RsaUnwrap)
    (hr : tkey_rsa_unwrap hash g dst dst_size src src_size = some r) :
    r = ⟨0, dst, src⟩ ∨
    ∃ message db, r = tkey_rsa_check (TkeyGlobals.g_tkey_expected_db_prefix g) dst dst_size
      message db := by
  unfold tkey_rsa_unwrap at hr
  split at hr
  · cases hr
  · simp only at hr
    split at hr
    · exact Or.inl (Option.some.inj hr).symm
    · split at hr
      · cases hr
      · split at hr
        · cases hr
        · exact Or.inr ⟨_, _, (Option.some.inj hr).symm⟩

/-- Lines 98-137 return 0 only on the ways that leave `dst` as it was. -/
theorem tkey_rsa_check_ret_zero (p dst : List Nat) (dst_size : Nat) (message db : List Nat)
    (h : (tkey_rsa_check p dst dst_size message db).ret = 0) :
    tkey_rsa_check p dst dst_size message db = ⟨0, dst, message⟩ := by
  rcases tkey_rsa_check_cases p dst dst_size message db with ⟨e, _⟩ | ⟨k, _, _, _, _, _, _, e⟩
  · exact e
  · rw [e] at h
    exact absurd h (Nat.succ_ne_zero k)

/-- The `message` argument of `tkey_rsa_check` is only handed through. -/
theorem tkey_rsa_check_message (p dst : List Nat) (dst_size : Nat) (m1 m2 db : List Nat) :
    (tkey_rsa_check p dst dst_size m1 db).ret = (tkey_rsa_check p dst dst_size m2 db).ret ∧
    (tkey_rsa_check p dst dst_size m1 db).dst = (tkey_rsa_check p dst dst_size m2 db).dst ∧
    (tkey_rsa_check p dst dst_size m1 db).src = m1 := by
  unfold tkey_rsa_check
  split
  · exact ⟨rfl, rfl, rfl⟩
  · simp only
    split
    · exact ⟨rfl, rfl, rfl⟩
    · split
      · exact ⟨rfl, rfl, rfl⟩
      · split
        · exact ⟨rfl, rfl, rfl⟩
        · exact ⟨rfl, rfl, rfl⟩

theorem unmasked_region_length (hash : List Nat → List Nat)
    (hdig : ∀ m, (hash m).length = 0x20) (src : List Nat) (hlen : src.length = 0x100) (n : Nat) :
    (((unmasked_db hash src).drop 0x20).drop n).length = 0xBF - n := by
  rw [List.length_drop, List.length_drop, unmasked_db_length hash hdig src hlen]

theorem memcpy_all (dst ct : List Nat) (n : Nat) (h : ct.length = n) :
    memcpy dst ct n = ct ++ dst.drop n := by
  unfold memcpy
  rw [List.take_of_length_le (by rw [h])]

/-- The call on `toy_message` with a 16-byte `dst`: it returns 184 and copies
the seven bytes of `toy_ciphertext`. -/
theorem toy_message_unwrap :
    tkey_rsa_unwrap toy_hash toy_globals (List.replicate 0x10 0xFF) 0x10 toy_message 0x100 =
      some ⟨184, toy_ciphertext ++ List.replicate 9 0xFF,
        0x00 :: (toy_salt ++ data_block toy_expected_db toy_ciphertext)⟩ :=
  (tkey_rsa_unwrap_wrap toy_hash toy_hash_length toy_globals (List.replicate 0x10 0xFF) 0x10
    toy_salt (data_block toy_expected_db toy_ciphertext) (by decide) (by decide)).trans
    (congrArg some
      ((tkey_rsa_check_accept _ _ _ _ _ (by decide) 183 (by decide) (by decide) (by decide)
        (by decide) (by decide)).trans (by decide)))

/-- The call on `toy_message` with room for 6 bytes only: it returns 0. -/
theorem toy_message_unwrap_small :
    tkey_rsa_unwrap toy_hash toy_globals (List.replicate 0x10 0xFF) 6 toy_message 0x100 =
      some ⟨0, List.replicate 0x10 0xFF,
        0x00 :: (toy_salt ++ data_block toy_expected_db toy_ciphertext)⟩ :=
  (tkey_rsa_unwrap_wrap toy_hash toy_hash_length toy_globals (List.replicate 0x10 0xFF) 6
    toy_salt (data_block toy_expected_db toy_ciphertext) (by decide) (by decide)).trans
    (congrArg some
      (tkey_rsa_check_size _ _ _ _ _ 183 (by decide) (by decide) (by decide)
        (Or.inr (by decide))))

theorem toy_message_length : toy_message.length = 0x100 := by decide

theorem unmasked_message_drop (hash : List Nat → List Nat)
    (hdig : ∀ m, (hash m).length = 0x20) (src : List Nat) (hlen : src.length = 0x100) (n : Nat) :
    (src.take 1 ++ unmasked_salt hash src ++ unmasked_db hash src).drop (0x41 + n) =
      ((unmasked_db hash src).drop 0x20).drop n := by
  have hl : (src.take 1 ++ unmasked_salt hash src).length = 0x21 := by
    rw [List.length_append, List.length_take, hlen, unmasked_salt_length hash hdig src hlen]
    rfl
  have e : 0x41 + n = (src.take 1 ++ unmasked_salt hash src).length + (0x20 + n) := by
    rw [hl]; omega
  rw [e, List.drop_append, List.drop_drop]

/-- On a 256-byte message the call returns 0 exactly on the ways listed in
`tkey_rejects`, and then `dst` is as it was. -/
theorem tkey_rsa_unwrap_rejects_iff (hash : List Nat → List Nat)
    (hdig : ∀ m, (hash m).length = 0x20) (g : TkeyGlobals) (dst : List Nat) (dst_size : Nat)
    (src : List Nat) (hp : (TkeyGlobals.g_tkey_expected_db_prefix g).length = 0x20)
    (hlen : src.length = 0x100) :
    ∃ r, tkey_rsa_unwrap hash g dst dst_size src 0x100 = some r ∧
      (tkey_rejects hash g dst_size src ↔ r.ret = 0) ∧ (r.ret = 0 → r.dst = dst) := by
  refine ⟨_, tkey_rsa_unwrap_cases hash hdig g dst dst_size src hlen, ?_, ?_⟩
  · by_cases h0 : src.getD 0 0 ≠ 0
    · rw [if_pos h0]
      exact ⟨fun _ => rfl, fun _ => Or.inl h0⟩
    · rw [if_neg h0]
      rcases tkey_rsa_check_cases (TkeyGlobals.g_tkey_expected_db_prefix g) dst dst_size
        (src.take 1 ++ unmasked_salt hash src ++ unmasked_db hash src) (unmasked_db hash src)
        with ⟨e, why⟩ | ⟨k, hk0, hk, hpre, hz, h1, hsz, e⟩
      · rw [e]
        refine ⟨fun _ => rfl, fun _ => Or.inr ?_⟩
        rcases why with ⟨i, hi, hne⟩ | h | h | h | h
        · exact Or.inl (fun hEq => hne (getD_of_take_eq _ _ hEq i hi))
        · exact Or.inr (Or.inl h)
        · exact Or.inr (Or.inr (Or.inl h))
        · exact Or.inr (Or.inr (Or.inr (Or.inl h)))
        · exact Or.inr (Or.inr (Or.inr (Or.inr h)))
      · rw [e]
        refine ⟨fun hrej => ?_, fun h => absurd h (Nat.succ_ne_zero k)⟩
        exfalso
        rcases hrej with h | h | h | ⟨k2, hk2, hz2, hn0, hn1⟩ | h | ⟨k2, hk2, hz2, h12, hsz2⟩
        · exact h0 h
        · obtain ⟨i, hi, hne⟩ := exists_ne_of_take_ne _ _ hp
            (by rw [unmasked_db_length hash hdig src hlen]; decide) h
          exact hne (hpre i hi)
        · exact h (hz 0 hk0)
        · rcases Nat.lt_trichotomy k k2 with hlt | heq | hgt
          · have := hz2 k hlt
            rw [h1] at this
            exact absurd this (by decide)
          · subst heq
            exact hn1 h1
          · exact hn0 (hz k2 hgt)
        · have := h k (by omega)
          rw [h1] at this
          exact absurd this (by decide)
        · rcases Nat.lt_trichotomy k k2 with hlt | heq | hgt
          · have := hz2 k hlt
            rw [h1] at this
            exact absurd this (by decide)
          · subst heq
            omega
          · have := hz k2 hgt
            rw [h12] at this
            exact absurd this (by decide)
  · intro h
    by_cases h0 : src.getD 0 0 ≠ 0
    · rw [if_pos h0]
    · rw [if_neg h0] at h ⊢
      rw [tkey_rsa_check_ret_zero _ _ _ _ _ h]

theorem calculate_mgf1_and_xor_none_iff (hash : List Nat → List Nat) (masked : List Nat)
    (masked_size : Nat) (seed : List Nat) (seed_size : Nat) :
    calculate_mgf1_and_xor hash masked masked_size seed seed_size = none ↔ seed_size ≥ 0xE0 := by
  unfold calculate_mgf1_and_xor
  by_cases h : seed_size ≥ 0xE0
  · rw [if_pos h]
    exact ⟨fun _ => h, fun _ => rfl⟩
  · rw [if_neg h]
    exact ⟨fun e => Option.noConfusion e, fun e => absurd e h⟩

/-! ## Lemmas on the globals and the acceptance condition -/

theorem set_expected_step (p b : List Nat) (n : Nat) (hn : n ≤ p.length) :
    (p.take n ++ b).take n ++ memcpy ((p.take n ++ b).drop n) (p.drop n) 8 =
      p.take (n + 8) ++ b.drop 8 := by
  have hl : (p.take n).length = n := by rw [List.length_take]; omega
  rw [List.take_left' hl, List.drop_left' hl]
  unfold memcpy
  rw [← List.append_assoc, ← List.take_add]

theorem take_eq_of_getD (p db : List Nat) (hp : p.length = 0x20) (hdb : 0x20 ≤ db.length)
    (h : ∀ i, i < 0x20 → p.getD i 0 = db.getD i 0) : db.take 0x20 = p := by
  by_contra hne
  obtain ⟨i, hi, hi2⟩ := exists_ne_of_take_ne p db hp hdb hne
  exact hi2 (h i hi)

/-- Zero bytes up to a 0x01 fix its position: two such positions are equal. -/
theorem first_one_unique (R : List Nat) (k k2 : Nat)
    (hz : ∀ j, j < k → R.getD j 0 = 0) (h1 : R.getD k 0 = 1)
    (hz2 : ∀ j, j < k2 → R.getD j 0 = 0) (h12 : R.getD k2 0 = 1) : k = k2 := by
  rcases Nat.lt_trichotomy k k2 with hlt | heq | hgt
  · have := hz2 k hlt
    rw [h1] at this
    exact absurd this (by decide)
  · exact heq
  · have := hz k2 hgt
    rw [h12] at this
    exact absurd this (by decide)

theorem tkey_call_keeps_rev (MASTERKEY_REVISION_MAX : Nat) (hash : List Nat → List Nat)
    (g g1 : TkeyGlobals) (c : TkeyCall)
    (h : tkey_call MASTERKEY_REVISION_MAX hash g c = some g1) :
    TkeyGlobals.g_tkey_master_key_rev g1 = TkeyGlobals.g_tkey_master_key_rev g := by
  cases c with
  | expected_db bytes =>
    simp only [tkey_call, Option.some.injEq] at h
    rw [← h]
    rfl
  | master_key_rev master_key_rev =>
    simp only [tkey_call, tkey_set_master_key_rev] at h
    split at h
    · cases h
    · rw [← Option.some.inj h]
  | rsa_unwrap dst dst_size src src_size =>
    simp only [tkey_call, Option.map_eq_some'] at h
    obtain ⟨_, _, e⟩ := h
    rw [← e]

theorem tkey_calls_keep_rev (MASTERKEY_REVISION_MAX : Nat) (hash : List Nat → List Nat)
    (calls : List TkeyCall) :
    ∀ g g1 : TkeyGlobals, tkey_calls MASTERKEY_REVISION_MAX hash g calls = some g1 →
      TkeyGlobals.g_tkey_master_key_rev g1 = TkeyGlobals.g_tkey_master_key_rev g := by
  induction calls with
  | nil =>
    intro g g1 h
    simp only [tkey_calls, Option.some.injEq] at h
    rw [h]
  | cons c cs ih =>
    intro g g1 h
    simp only [tkey_calls] at h
    split at h
    · cases h
    · rename_i g2 e
      rw [ih g2 g1 h, tkey_call_keeps_rev MASTERKEY_REVISION_MAX hash g g2 c e]

theorem tkey_call_rsa_unwrap (MASTERKEY_REVISION_MAX : Nat) (hash : List Nat → List Nat)
    (g : TkeyGlobals) (dst : List Nat) (dst_size : Nat) (src : List Nat) (r : RsaUnwrap)
    (h : tkey_rsa_unwrap hash g dst dst_size src 0x100 = some r) :
    tkey_call MASTERKEY_REVISION_MAX hash g (TkeyCall.rsa_unwrap dst dst_size src 0x100) =
      some g := by
  simp only [tkey_call, h, Option.map_some']

/-! ## Lemmas on the bounds-checked embedding -/

theorem load_ok (buf : List Nat) (i : Nat) (h : i < buf.length) :
    load buf i = Except.ok (buf.getD i 0) := by
  unfold load
  rw [if_pos h]

theorem store_ok (buf : List Nat) (i v : Nat) (h : i < buf.length) :
    store buf i v = Except.ok (buf.set i v) := by
  unfold store
  rw [if_pos h]

theorem memcpy_checked_ok (dst src : List Nat) (n : Nat) (hd : n ≤ dst.length)
    (hs : n ≤ src.length) : memcpy_checked dst src n = Except.ok (memcpy dst src n) := by
  unfold memcpy_checked
  rw [if_pos ⟨hd, hs⟩]

theorem mgf1_xor_chunk_checked_ok (h : List Nat) (n : Nat) (st : List Nat × Nat)
    (hb : st.2 + n ≤ st.1.length) (hh : n ≤ h.length) :
    mgf1_xor_chunk_checked h n st = Except.ok (mgf1_xor_chunk h n st) := by
  induction n with
  | zero => rfl
  | succ n ih =>
    have ih := ih (by omega) (by omega)
    obtain ⟨s1, s2, _⟩ := mgf1_xor_chunk_spec h n st (by omega)
    unfold mgf1_xor_chunk_checked mgf1_xor_chunk at ih ⊢
    rw [List.range_succ, List.foldlM_append, List.foldl_append, ih]
    unfold mgf1_xor_chunk at s1 s2
    simp only [List.foldlM_cons, List.foldlM_nil, List.foldl_cons, List.foldl_nil]
    generalize List.foldl (fun st i => (st.1.set st.2 (st.1.getD st.2 0 ^^^ h.getD i 0), st.2 + 1))
      st (List.range n) = s at s1 s2 ⊢
    have hs : s.2 < s.1.length := by rw [s1, s2]; omega
    simp only [bind, Except.bind, pure, Except.pure, load_ok h n (by omega), load_ok s.1 s.2 hs,
      store_ok s.1 s.2 _ hs]

theorem mgf1_loop_checked_ok (hash : List Nat → List Nat) (hdig : ∀ m, (hash m).length = 0x20)
    (s : Nat) :
    ∀ (n : Nat) (hb : List Nat) (round : Nat) (st : List Nat × Nat),
      s + 4 ≤ hb.length → st.2 + n ≤ st.1.length →
      mgf1_loop_checked hash s (s + 4) hb round st n =
        Except.ok (mgf1_loop hash s (s + 4) hb round st n) := by
  intro n
  induction n using Nat.strong_induction_on with
  | _ n ih =>
    intro hb round st hlen hst
    rw [mgf1_loop_checked, mgf1_loop]
    by_cases hn : n = 0
    · rw [if_pos hn, dif_pos hn]
    · rw [if_neg hn, dif_neg hn]
      simp only
      rw [store_ok hb (s + 0) _ (by omega)]
      simp only
      rw [store_ok _ (s + 1) _ (by rw [List.length_set]; omega)]
      simp only
      rw [store_ok _ (s + 2) _ (by rw [List.length_set, List.length_set]; omega)]
      simp only
      rw [store_ok _ (s + 3) _ (by rw [List.length_set, List.length_set, List.length_set]; omega)]
      simp only
      rw [if_neg (by
        rw [List.length_set, List.length_set, List.length_set, List.length_set]; omega)]
      generalize hc : (if n > 0x20 then 0x20 else n) = c
      have hc1 : 0 < c ∧ c ≤ n ∧ c ≤ 32 := by
        subst hc; split <;> omega
      generalize hH : hash _ = H
      have hHl : H.length = 0x20 := by rw [← hH]; exact hdig _
      obtain ⟨x1, x2, _⟩ := mgf1_xor_chunk_spec H c st (by omega)
      rw [mgf1_xor_chunk_checked_ok H c st (by omega) (by rw [hHl]; omega)]
      simp only
      exact ih (n - c) (by omega) _ _ _
        (by rw [List.length_set, List.length_set, List.length_set, List.length_set]; exact hlen)
        (by rw [x1, x2]; omega)

theorem calculate_mgf1_and_xor_checked_ok (hash : List Nat → List Nat)
    (hdig : ∀ m, (hash m).length = 0x20) (masked : List Nat) (masked_size : Nat)
    (seed : List Nat) (seed_size : Nat) (hs : seed_size < 0xE0) (hseed : seed_size ≤ seed.length)
    (hm : masked_size ≤ masked.length) (out : List Nat)
    (hout : calculate_mgf1_and_xor hash masked masked_size seed seed_size = some out) :
    calculate_mgf1_and_xor_checked hash masked masked_size seed seed_size = Except.ok out := by
  unfold calculate_mgf1_and_xor at hout
  rw [if_neg (by omega)] at hout
  unfold calculate_mgf1_and_xor_checked
  rw [if_neg (by omega),
    memcpy_checked_ok _ _ _ (by rw [List.length_replicate]; omega) hseed]
  simp only
  rw [mgf1_loop_checked_ok hash hdig seed_size masked_size _ 0 (masked, 0)
    (by simp only [memcpy, List.length_append, List.length_take, List.length_drop,
          List.length_replicate]; omega)
    (by simpa using hm)]
  exact congrArg Except.ok (Option.some.inj hout)

theorem tkey_compare_checked_false ( p db : List Nat) (hp : 0x20 ≤ p.length)
    (hdb : 0x20 ≤ db.length) :
    ∀ (n i : Nat), 0x20 - i = n → (∀ j, i ≤ j → j < 0x20 → p.getD j 0 = db.getD j 0) →
      tkey_compare_checked p db i = Except.ok false := by
  intro n
  induction n with
  | zero =>
    intro i hi _
    rw [tkey_compare_checked, if_neg (by omega)]
  | succ n ih =>
    intro i hi h
    rw [tkey_compare_checked, if_pos (by omega), load_ok p i (by omega), load_ok db i (by omega)]
    simp only
    rw [h i (Nat.le_refl i) (by omega), if_neg (by simp)]
    exact ih (i + 1) (by omega) (fun j h1 h2 => h j (by omega) h2)

theorem tkey_compare_checked_true ( p db : List Nat) (hp : 0x20 ≤ p.length)
    (hdb : 0x20 ≤ db.length) (k : Nat) (hk : k < 0x20) (hne : p.getD k 0 ≠ db.getD k 0) :
    ∀ (n i : Nat), 0x20 - i = n → i ≤ k →
      tkey_compare_checked p db i = Except.ok true := by
  intro n
  induction n with
  | zero =>
    intro i hi hik
    omega
  | succ n ih =>
    intro i hi hik
    rw [tkey_compare_checked, if_pos (by omega), load_ok p i (by omega), load_ok db i (by omega)]
    simp only
    by_cases he : p.getD i 0 = db.getD i 0
    · rw [he, if_neg (by simp)]
      have : i ≠ k := by
        intro hik2
        subst hik2
        exact hne he
      exact ih (i + 1) (by omega) (by omega)
    · rw [if_pos (by simpa using he)]

theorem tkey_locate_checked_ok (db : List Nat) (hdb : 0xBF ≤ db.length) :
    ∀ (n off : Nat), 0xBF - off = n →
      tkey_locate_checked db off = Except.ok (tkey_locate db off) := by
  intro n
  induction n with
  | zero =>
    intro off h
    rw [tkey_locate_checked, tkey_locate, if_neg (by omega), dif_neg (by omega)]
  | succ n ih =>
    intro off h
    rw [tkey_locate_checked, tkey_locate, if_pos (by omega), dif_pos (by omega),
      load_ok db off (by omega)]
    simp only
    by_cases h0 : db.getD off 0 = 0
    · rw [if_pos h0, if_pos h0]
      exact ih (off + 1) (by omega)
    · rw [if_neg h0, if_neg h0]
      by_cases h1 : db.getD off 0 = 1
      · rw [if_pos h1, if_pos h1]
      · rw [if_neg h1, if_neg h1]

theorem tkey_rsa_check_checked_ok ( p dst : List Nat) (dst_size : Nat) (message db : List Nat)
    (hp : 0x20 ≤ p.length) (hdb : db.length = 0xDF) (hdst : dst_size ≤ dst.length) :
    tkey_rsa_check_checked p dst dst_size message db =
      Except.ok (tkey_rsa_check p dst dst_size message db) := by
  unfold tkey_rsa_check_checked tkey_rsa_check
  by_cases hpre : ∀ i, i < 0x20 → p.getD i 0 = db.getD i 0
  · rw [tkey_compare_checked_false p db hp (by omega) 0x20 0 rfl (fun j _ hj => hpre j hj),
      prefix_any_false p db hpre]
    simp only
    rw [load_ok (db.drop 0x20) 0 (by rw [List.length_drop, hdb]; decide)]
    simp only
    by_cases h0 : (db.drop 0x20).getD 0 0 ≠ 0
    · rw [if_pos h0, if_neg (by simp), if_pos h0]
    · rw [if_neg h0, if_neg (by simp), if_neg h0,
        tkey_locate_checked_ok (db.drop 0x20) (by rw [List.length_drop, hdb]) 0xBF 0 rfl]
      cases hl : tkey_locate (db.drop 0x20) 0 with
      | none => rfl
      | some off =>
        simp only
        by_cases hsz : 0xBF - off > dst_size ∨ 0xBF - off = 0
        · rw [if_pos hsz, if_pos hsz]
        · have hl2 : ((db.drop 0x20).drop off).length = 0xBF - off := by
            rw [List.length_drop, List.length_drop, hdb]
          rw [if_neg hsz, if_neg hsz,
            memcpy_checked_ok _ _ _ (by omega) (Nat.le_of_eq hl2.symm)]
  · have : ∃ i, i < 0x20 ∧ p.getD i 0 ≠ db.getD i 0 := by
      by_contra hcon
      exact hpre (fun i hi => by
        by_contra hne
        exact hcon ⟨i, hi, hne⟩)
    obtain ⟨k, hk, hne⟩ := this
    rw [tkey_compare_checked_true p db hp (by omega) k hk hne 0x20 0 rfl (Nat.zero_le k),
      prefix_any_true p db k hk hne]
    simp only
    rw [if_pos True.intro]

/-- The checked embedding of `tkey_rsa_unwrap` on buffers of their declared
sizes: no access is out of range, and the result is that of the embedding. -/
theorem tkey_rsa_unwrap_checked_ok (hash : List Nat → List Nat)
    (hdig : ∀ m, (hash m).length = 0x20) (g : TkeyGlobals) (dst : List Nat) (dst_size : Nat)
    (src : List Nat) (hp : (TkeyGlobals.g_tkey_expected_db_prefix g).length = 0x20)
    (hlen : src.length = 0x100) (hdst : dst_size ≤ dst.length) :
    ∃ r, tkey_rsa_unwrap_checked hash g dst dst_size src 0x100 = Except.ok r ∧
      tkey_rsa_unwrap hash g dst dst_size src 0x100 = some r := by
  by_cases h0 : src.getD 0 0 ≠ 0
  · refine ⟨⟨0, dst, src⟩, ?_, ?_⟩
    · unfold tkey_rsa_unwrap_checked
      rw [if_neg (by simp)]
      simp only [load_ok src 0 (by rw [hlen]; decide)]
      rw [if_pos h0]
    · unfold tkey_rsa_unwrap
      rw [if_neg (by simp), if_pos h0]
  · refine ⟨_, ?_, tkey_rsa_unwrap_eq hash hdig g dst dst_size src hlen (by simpa using h0)⟩
    unfold tkey_rsa_unwrap_checked
    rw [if_neg (by simp)]
    have hs := unmasked_salt_length hash hdig src hlen
    simp only [load_ok src 0 (by rw [hlen]; decide)]
    rw [if_neg h0,
      calculate_mgf1_and_xor_checked_ok hash hdig _ _ _ _ (by decide)
        (by rw [List.length_drop, hlen]) (by rw [List.length_drop, hlen]; decide) _
        (unmask_salt_call hash hdig src hlen)]
    simp only
    rw [calculate_mgf1_and_xor_checked_ok hash hdig _ _ _ _ (by decide)
        (by rw [List.length_drop, List.length_append, List.length_append, List.length_take,
              List.length_drop, hlen, hs]; decide)
        (by rw [List.length_drop, List.length_append, List.length_append, List.length_take,
              List.length_drop, hlen, hs]; decide) _
        (unmask_db_call hash hdig src hlen)]
    simp only
    rw [tkey_rsa_check_checked_ok _ _ _ _ _ (by rw [hp])
      (unmasked_db_length hash hdig src hlen) hdst]
    congr 3
    rw [← List.append_assoc]
    exact List.take_left' (by rw [List.length_append, List.length_take, hlen, hs]; rfl)

theorem memcpy_length (dst src : List Nat) (n : Nat) (hd : n ≤ dst.length) (hs : n ≤ src.length) :
    (memcpy dst src n).length = dst.length := by
  unfold memcpy
  rw [List.length_append, List.length_take, List.length_drop]
  omega

theorem tkey_rsa_unwrap_lengths (hash : List Nat → List Nat)
    (hdig : ∀ m, (hash m).length = 0x20) (g : TkeyGlobals) (dst : List Nat) (dst_size : Nat)
    (src : List Nat) (hlen : src.length = 0x100) (hdst : dst_size ≤ dst.length) (r : RsaUnwrap)
    (hr : tkey_rsa_unwrap hash g dst dst_size src 0x100 = some r) :
    r.src.length = 0x100 ∧ r.dst.length = dst.length := by
  rw [tkey_rsa_unwrap_cases hash hdig g dst dst_size src hlen] at hr
  have hr := (Option.some.inj hr).symm
  subst hr
  split
  · exact ⟨hlen, rfl⟩
  · have hm : (src.take 1 ++ unmasked_salt hash src ++ unmasked_db hash src).length = 0x100 := by
      rw [List.length_append, List.length_append, List.length_take, hlen,
        unmasked_salt_length hash hdig src hlen, unmasked_db_length hash hdig src hlen]
      rfl
    rcases tkey_rsa_check_cases (TkeyGlobals.g_tkey_expected_db_prefix g) dst dst_size
      (src.take 1 ++ unmasked_salt hash src ++ unmasked_db hash src) (unmasked_db hash src)
      with ⟨e, _⟩ | ⟨k, _, hk, _, _, _, hsz, e⟩
    · rw [e]
      exact ⟨hm, rfl⟩
    · rw [e]
      refine ⟨hm, memcpy_length _ _ _ (by omega) ?_⟩
      rw [unmasked_region_length hash hdig src hlen (k + 1)]
      omega

/-! ## The claims -/

/-- C1, as the code has it: for a hash with 32-byte digests, a stored 32-byte
expected prefix, a 32-byte salt and a ciphertext `c` of 1..189 bytes, the
message built from the data block `expected_prefix || 00 .. 00 || 01 || c` is
accepted when `dst_size` is at least the length of `c`: the bytes of `c` are
written to the start of `dst`, and the value returned is `191 - len c`, the
offset of the first byte of `c` in the 191 bytes that follow the prefix. -/
theorem tkey_rsa_unwrap_round_trip (hash : List Nat → List Nat)
    (hdig : ∀ m, (hash m).length = 0x20) (g : TkeyGlobals) (dst : List Nat) (dst_size : Nat)
    (salt c : List Nat) (hp : (TkeyGlobals.g_tkey_expected_db_prefix g).length = 0x20)
    (hs : salt.length = 0x20) (hc1 : 1 ≤ c.length) (hc2 : c.length ≤ 189)
    (hsz : c.length ≤ dst_size) :
    tkey_rsa_unwrap hash g dst dst_size
        (wrap_message hash salt (data_block (TkeyGlobals.g_tkey_expected_db_prefix g) c)) 0x100 =
      some ⟨0xBF - c.length, c ++ dst.drop c.length,
        0x00 :: (salt ++ data_block (TkeyGlobals.g_tkey_expected_db_prefix g) c)⟩ := by
  have hd := data_block_length _ c hp (by omega)
  obtain ⟨wl, w0, ws, wd⟩ := unmask_wrap_message hash hdig salt _ hs hd
  have hR := data_block_drop (TkeyGlobals.g_tkey_expected_db_prefix g) c hp
  rw [tkey_rsa_unwrap_eq hash hdig g dst dst_size _ wl w0, ws, wd,
    tkey_rsa_check_accept _ _ _ _ _ (data_block_getD_head _ c hp) (0xBE - c.length)
      (by omega) (by omega)
      (by
        intro j hj
        rw [hR, List.getD_append _ _ _ _ (by rw [List.length_replicate]; exact hj),
          List.getD_eq_getElem?_getD, List.getElem?_replicate, if_pos hj]
        rfl)
      (by
        rw [hR, List.getD_append_right _ _ _ _ (by rw [List.length_replicate]),
          List.length_replicate, Nat.sub_self]
        rfl)
      (by omega),
    wrap_message_take_one, hR]
  have e1 : 0xBE - (0xBE - c.length) = c.length := by omega
  have e2 : (List.replicate (0xBE - c.length) 0 ++ ([0x01] ++ c)).drop (0xBE - c.length + 1) = c := by
    rw [← List.append_assoc]
    exact List.drop_left' (by rw [List.length_append, List.length_replicate]; rfl)
  have e3 : 0xBE - c.length + 1 = 0xBF - c.length := by omega
  rw [e1, e2, e3]
  unfold memcpy
  rw [List.take_length]
  rfl

/-- C1 (amended) at a 7-byte ciphertext with a 0x01 and zero bytes inside, and
a 16-byte `dst`: the call returns 184 and the first 7 bytes of `dst` are the
ciphertext. -/
theorem tkey_rsa_unwrap_round_trip_witness :
    tkey_rsa_unwrap toy_hash toy_globals (List.replicate 0x10 0xFF) 0x10
        (wrap_message toy_hash toy_salt
          (data_block toy_expected_db [0xDE, 0xAD, 0x00, 0x01, 0xBE, 0xEF, 0x00])) 0x100 =
      some ⟨184, [0xDE, 0xAD, 0x00, 0x01, 0xBE, 0xEF, 0x00] ++ List.replicate 9 0xFF,
        0x00 :: (toy_salt ++ data_block toy_expected_db [0xDE, 0xAD, 0x00, 0x01, 0xBE, 0xEF, 0x00])⟩ :=
  tkey_rsa_unwrap_round_trip toy_hash toy_hash_length toy_globals (List.replicate 0x10 0xFF) 0x10
    toy_salt [0xDE, 0xAD, 0x00, 0x01, 0xBE, 0xEF, 0x00] (by decide) (by decide) (by decide)
    (by decide) (by decide)

/-- C1 fails at a ciphertext of 190 bytes: the data block
`expected_prefix || 01 || c` has 223 bytes and `dst` has room for 190, yet the
call returns 0 and writes nothing to `dst`, because the byte after the prefix
is not 0x00 (line 111). -/
theorem tkey_rsa_unwrap_round_trip_fails_at_190 :
    (List.replicate 190 0xAA).length = 190 ∧
    (data_block toy_expected_db (List.replicate 190 0xAA)).length = 223 ∧
    tkey_rsa_unwrap toy_hash toy_globals (List.replicate 190 0x00) 190
        (wrap_message toy_hash toy_salt (data_block toy_expected_db (List.replicate 190 0xAA)))
        0x100 =
      some ⟨0, List.replicate 190 0x00,
        0x00 :: (toy_salt ++ data_block toy_expected_db (List.replicate 190 0xAA))⟩ := by
  refine ⟨by decide, by decide, ?_⟩
  obtain ⟨wl, w0, ws, wd⟩ := unmask_wrap_message toy_hash toy_hash_length toy_salt
    (data_block toy_expected_db (List.replicate 190 0xAA)) (by decide) (by decide)
  rw [tkey_rsa_unwrap_eq toy_hash toy_hash_length toy_globals _ _ _ wl w0, ws, wd,
    tkey_rsa_check_first_nonzero _ _ _ _ _ (by decide), wrap_message_take_one]
  rfl

/-- C2: for a hash with 32-byte digests, a seed of 0..223 bytes and a buffer of
`L` bytes, `calculate_mgf1_and_xor` returns the buffer XORed byte-wise with the
first `L` bytes of `hash (seed || be32 0) || hash (seed || be32 1) || ...`; the
length is unchanged, and the mask is the same for every buffer of `L` bytes. -/
theorem calculate_mgf1_and_xor_refines_mgf1 (hash : List Nat → List Nat)
    (hdig : ∀ m, (hash m).length = 0x20) (seed buffer : List Nat) (hs : seed.length < 224) :
    calculate_mgf1_and_xor hash buffer buffer.length seed seed.length =
      some (xor_bytes buffer (mgf1_reference hash seed buffer.length)) ∧
    (xor_bytes buffer (mgf1_reference hash seed buffer.length)).length = buffer.length ∧
    ∀ other : List Nat, other.length = buffer.length →
      calculate_mgf1_and_xor hash other buffer.length seed seed.length =
        some (xor_bytes other (mgf1_reference hash seed buffer.length)) := by
  refine ⟨calculate_mgf1_and_xor_eq_reference hash hdig seed buffer hs, ?_, ?_⟩
  · rw [xor_bytes_length, mgf1_reference_length hash hdig, Nat.min_self]
  · intro other ho
    rw [← ho]
    exact calculate_mgf1_and_xor_eq_reference hash hdig seed other hs

/-- C2 at a 3-byte seed and a 40-byte buffer (two rounds of the toy hash). -/
theorem calculate_mgf1_and_xor_refines_mgf1_witness :
    calculate_mgf1_and_xor toy_hash (List.replicate 40 0xFF) 40 [1, 2, 3] 3 =
      some [150, 143, 136, 129, 122, 115, 108, 101, 94, 87, 80, 73, 66, 59, 52, 45, 38, 31, 24,
        17, 10, 3, 252, 245, 238, 231, 224, 217, 210, 203, 196, 189, 149, 142, 135, 128, 121, 114,
        107, 100] :=
  (calculate_mgf1_and_xor_refines_mgf1 toy_hash toy_hash_length [1, 2, 3]
    (List.replicate 40 0xFF) (by decide)).1.trans (by decide)

/-- C3: for a seed of fewer than 224 bytes, applying `calculate_mgf1_and_xor`
twice with the same seed and length gives the buffer back; neither call panics. -/
theorem calculate_mgf1_and_xor_involution (hash : List Nat → List Nat)
    (seed buffer : List Nat) (hs : seed.length < 224) :
    ∃ once, calculate_mgf1_and_xor hash buffer buffer.length seed seed.length = some once ∧
      calculate_mgf1_and_xor hash once buffer.length seed seed.length = some buffer := by
  have hl : (xor_bytes buffer (mgf1_mask hash seed buffer.length)).length = buffer.length := by
    rw [xor_bytes_length, mgf1_mask_length, Nat.min_self]
  refine ⟨xor_bytes buffer (mgf1_mask hash seed buffer.length), ?_, ?_⟩
  · rw [calculate_mgf1_and_xor_eq hash buffer buffer.length seed seed.length hs (le_refl _)
      (le_refl _), List.take_length, List.take_length, List.drop_length, List.append_nil]
  · rw [calculate_mgf1_and_xor_eq hash _ buffer.length seed seed.length hs (le_refl _)
      (by rw [hl]), List.take_length]
    have e1 : (xor_bytes buffer (mgf1_mask hash seed buffer.length)).take buffer.length =
        xor_bytes buffer (mgf1_mask hash seed buffer.length) :=
      List.take_of_length_le (by rw [hl])
    have e2 : (xor_bytes buffer (mgf1_mask hash seed buffer.length)).drop buffer.length = [] :=
      List.drop_of_length_le (by rw [hl])
    rw [e1, e2, List.append_nil, xor_bytes_cancel _ _ (by rw [mgf1_mask_length])]

/-- C3 at a 3-byte seed and a 40-byte buffer. -/
theorem calculate_mgf1_and_xor_involution_witness :
    ∃ once, calculate_mgf1_and_xor toy_hash (List.replicate 40 0xFF) 40 [1, 2, 3] 3 = some once ∧
      calculate_mgf1_and_xor toy_hash once 40 [1, 2, 3] 3 = some (List.replicate 40 0xFF) :=
  calculate_mgf1_and_xor_involution toy_hash [1, 2, 3] (List.replicate 40 0xFF) (by decide)

/-- C4 (the code does not do this): a call of `tkey_set_master_key_rev` with a
revision below `MASTERKEY_REVISION_MAX` returns without a panic and leaves
the globals as they were, so from the start-up state the stored revision is
still `MASTERKEY_REVISION_MAX`, not `master_key_rev`. -/
theorem tkey_set_master_key_rev_does_not_store (MASTERKEY_REVISION_MAX master_key_rev : Nat)
    (h : master_key_rev < MASTERKEY_REVISION_MAX) :
    tkey_set_master_key_rev MASTERKEY_REVISION_MAX master_key_rev
        (tkey_initial MASTERKEY_REVISION_MAX) = some (tkey_initial MASTERKEY_REVISION_MAX) ∧
    TkeyGlobals.g_tkey_master_key_rev (tkey_initial MASTERKEY_REVISION_MAX) ≠ master_key_rev := by
  constructor
  · unfold tkey_set_master_key_rev
    rw [if_neg (by omega)]
  · show MASTERKEY_REVISION_MAX ≠ master_key_rev
    omega

/-- C4 at `MASTERKEY_REVISION_MAX = 5` and revision 0: the stored revision is
5 after the call. -/
theorem tkey_set_master_key_rev_does_not_store_witness :
    (tkey_set_master_key_rev 5 0 (tkey_initial 5)).map TkeyGlobals.g_tkey_master_key_rev =
      some 5 := by
  rw [(tkey_set_master_key_rev_does_not_store 5 0 (by decide)).1]
  rfl

/-- C5: with a current revision below `MASTERKEY_REVISION_MAX`, a 16-byte `src`
and a 16-byte `dst`, `tkey_aes_unwrap` returns, `dst` holds the reference value
(the block decrypted under the key derived from the constant under the master
key slot of the revision), and the only key slot that changes is
`KEYSLOT_SWITCH_TEMPKEY`.  The value of `dst` is a function of the revision,
the content of its master key slot, and `src`. -/
theorem tkey_aes_unwrap_eq_reference (MASTERKEY_REVISION_MAX KEYSLOT_SWITCH_TEMPKEY : Nat)
    (mkey_get_keyslot : Nat → Nat) (aes_ecb_decrypt : List Nat → List Nat → List Nat)
    (haes : ∀ k b, (aes_ecb_decrypt k b).length = 0x10)
    (g : TkeyGlobals) (keyslots : Nat → List Nat) (dst src : List Nat)
    (hrev : TkeyGlobals.g_tkey_master_key_rev g < MASTERKEY_REVISION_MAX)
    (hsrc : src.length = 0x10) (hdst : dst.length = 0x10) :
    tkey_aes_unwrap MASTERKEY_REVISION_MAX KEYSLOT_SWITCH_TEMPKEY mkey_get_keyslot
        aes_ecb_decrypt g keyslots dst 0x10 src 0x10 =
      Exit.returned
        ⟨fun k =>
            if k = KEYSLOT_SWITCH_TEMPKEY then
              aes_ecb_decrypt (keyslots (mkey_get_keyslot (TkeyGlobals.g_tkey_master_key_rev g)))
                titlekek_source
            else keyslots k,
          titlekey_reference aes_ecb_decrypt
            (keyslots (mkey_get_keyslot (TkeyGlobals.g_tkey_master_key_rev g))) src⟩ := by
  unfold tkey_aes_unwrap
  rw [if_neg (by omega)]
  have e1 : titlekek_source.take 0x10 = titlekek_source := rfl
  have e2 : src.take 0x10 = src := List.take_of_length_le (by rw [hsrc])
  simp only [decrypt_data_into_keyslot, se_aes_ecb_decrypt_block, memcpy, if_true, e1, e2]
  congr 2
  rw [List.take_of_length_le (by rw [haes]), List.drop_of_length_le (by rw [hdst]),
    List.append_nil]
  rfl

/-- C5 at `MASTERKEY_REVISION_MAX = 5`, revision 4, scratch slot 9 and master
key slot 8, with the toy cipher. -/
theorem tkey_aes_unwrap_eq_reference_witness :
    tkey_aes_unwrap 5 9 (fun rev => 12 - rev) toy_aes toy_globals toy_keyslots
        (List.replicate 0x10 0) 0x10 (List.range 0x10) 0x10 =
      Exit.returned
        ⟨fun k => if k = 9 then toy_aes (toy_keyslots 8) titlekek_source else toy_keyslots k,
          titlekey_reference toy_aes (toy_keyslots 8) (List.range 0x10)⟩ ∧
    titlekey_reference toy_aes (toy_keyslots 8) (List.range 0x10) =
      [22, 213, 113, 48, 108, 235, 186, 215, 120, 185, 21, 22, 156, 91, 100, 156] :=
  ⟨tkey_aes_unwrap_eq_reference 5 9 (fun rev => 12 - rev) toy_aes toy_aes_length toy_globals
    toy_keyslots (List.replicate 0x10 0) (List.range 0x10) (by decide) (by decide) (by decide),
    by decide⟩

/-- C6: `tkey_aes_unwrap` panics exactly when the current revision is not below
`MASTERKEY_REVISION_MAX`, or `dst_size` is not 0x10, or `src_size` is not 0x10;
at the panic the key slots and `dst` are as they were before the call. -/
theorem tkey_aes_unwrap_panic_iff (MASTERKEY_REVISION_MAX KEYSLOT_SWITCH_TEMPKEY : Nat)
    (mkey_get_keyslot : Nat → Nat) (aes_ecb_decrypt : List Nat → List Nat → List Nat)
    (g : TkeyGlobals) (keyslots : Nat → List Nat) (dst : List Nat) (dst_size : Nat)
    (src : List Nat) (src_size : Nat) :
    ((∃ m, tkey_aes_unwrap MASTERKEY_REVISION_MAX KEYSLOT_SWITCH_TEMPKEY mkey_get_keyslot
        aes_ecb_decrypt g keyslots dst dst_size src src_size = Exit.panicked m) ↔
      (TkeyGlobals.g_tkey_master_key_rev g ≥ MASTERKEY_REVISION_MAX ∨ dst_size ≠ 0x10 ∨
        src_size ≠ 0x10)) ∧
    (∀ m, tkey_aes_unwrap MASTERKEY_REVISION_MAX KEYSLOT_SWITCH_TEMPKEY mkey_get_keyslot
        aes_ecb_decrypt g keyslots dst dst_size src src_size = Exit.panicked m →
      m = ⟨keyslots, dst⟩) := by
  unfold tkey_aes_unwrap
  by_cases hc : TkeyGlobals.g_tkey_master_key_rev g ≥ MASTERKEY_REVISION_MAX ∨ dst_size ≠ 0x10 ∨
      src_size ≠ 0x10
  · rw [if_pos hc]
    refine ⟨⟨fun _ => hc, fun _ => ⟨_, rfl⟩⟩, ?_⟩
    intro m hm
    exact (Exit.panicked.inj hm).symm
  · rw [if_neg hc]
    refine ⟨⟨?_, fun h => absurd h hc⟩, ?_⟩
    · rintro ⟨m, hm⟩
      cases hm
    · intro m hm
      cases hm

/-- C7: a 256-byte message whose first byte is not 0x00 is rejected: the call
returns 0 without a panic and leaves `dst` and the message as they were, for
every hash, expected prefix and `dst_size`. -/
theorem tkey_rsa_unwrap_leading_byte (hash : List Nat → List Nat) (g : TkeyGlobals)
    (dst : List Nat) (dst_size : Nat) (src : List Nat) (_hlen : src.length = 0x100)
    (h0 : src.getD 0 0 ≠ 0) :
    tkey_rsa_unwrap hash g dst dst_size src 0x100 = some ⟨0, dst, src⟩ := by
  unfold tkey_rsa_unwrap
  rw [if_neg (by simp), if_pos h0]

/-- C7 at the message `0x01 || 0xFF .. 0xFF`. -/
theorem tkey_rsa_unwrap_leading_byte_witness :
    tkey_rsa_unwrap toy_hash toy_globals (List.replicate 0x10 0) 0x10
        (0x01 :: List.replicate 0xFF 0xFF) 0x100 =
      some ⟨0, List.replicate 0x10 0, 0x01 :: List.replicate 0xFF 0xFF⟩ :=
  tkey_rsa_unwrap_leading_byte toy_hash toy_globals (List.replicate 0x10 0) 0x10
    (0x01 :: List.replicate 0xFF 0xFF) (by rw [List.length_cons, List.length_replicate])
    (by decide)

/-- C8: a message built from a 223-byte data block whose first 32 bytes are not
the stored expected prefix is rejected: the call returns 0, `dst` is as it was,
and the message buffer holds the unmasked fields. -/
theorem tkey_rsa_unwrap_prefix_mismatch (hash : List Nat → List Nat)
    (hdig : ∀ m, (hash m).length = 0x20) (g : TkeyGlobals) (dst : List Nat) (dst_size : Nat)
    (salt DB : List Nat) (hp : (TkeyGlobals.g_tkey_expected_db_prefix g).length = 0x20)
    (hs : salt.length = 0x20) (hd : DB.length = 0xDF)
    (hne : DB.take 0x20 ≠ TkeyGlobals.g_tkey_expected_db_prefix g) :
    tkey_rsa_unwrap hash g dst dst_size (wrap_message hash salt DB) 0x100 =
      some ⟨0, dst, 0x00 :: (salt ++ DB)⟩ := by
  obtain ⟨wl, w0, ws, wd⟩ := unmask_wrap_message hash hdig salt DB hs hd
  obtain ⟨i, hi, hi2⟩ := exists_ne_of_take_ne _ DB hp (by rw [hd]; decide) hne
  rw [tkey_rsa_unwrap_eq hash hdig g dst dst_size _ wl w0, ws, wd,
    tkey_rsa_check_prefix_mismatch _ _ _ _ _ i hi hi2, wrap_message_take_one]
  rfl

/-- C8 at a data block whose prefix differs from the expected one in one bit
(bit 4 of byte 7) and is otherwise well formed. -/
theorem tkey_rsa_unwrap_prefix_mismatch_witness :
    tkey_rsa_unwrap toy_hash toy_globals (List.replicate 0x10 0xFF) 0x10
        (wrap_message toy_hash toy_salt
          (data_block (toy_expected_db.set 7 (toy_expected_db.getD 7 0 ^^^ 0x10)) [0xDE, 0xAD]))
        0x100 =
      some ⟨0, List.replicate 0x10 0xFF,
        0x00 :: (toy_salt ++
          data_block (toy_expected_db.set 7 (toy_expected_db.getD 7 0 ^^^ 0x10)) [0xDE, 0xAD])⟩ :=
  tkey_rsa_unwrap_prefix_mismatch toy_hash toy_hash_length toy_globals (List.replicate 0x10 0xFF)
    0x10 toy_salt (data_block (toy_expected_db.set 7 (toy_expected_db.getD 7 0 ^^^ 0x10)) [0xDE, 0xAD])
    (by decide) (by decide) (by decide) (by decide)

/-- C9: a 256-byte message whose unmasked data block has the expected prefix and
in whose 191 bytes after the prefix the first non-zero byte (at position `k`)
is not 0x01 is rejected: the call returns 0 and `dst` is as it was, whatever
follows position `k`. -/
theorem tkey_rsa_unwrap_bad_padding (hash : List Nat → List Nat)
    (hdig : ∀ m, (hash m).length = 0x20) (g : TkeyGlobals) (dst : List Nat) (dst_size : Nat)
    (src : List Nat) (hlen : src.length = 0x100)
    (_hpre : (unmasked_db hash src).take 0x20 = TkeyGlobals.g_tkey_expected_db_prefix g)
    (k : Nat) (hk : k < 0xBF)
    (hz : ∀ j, j < k → ((unmasked_db hash src).drop 0x20).getD j 0 = 0)
    (h0 : ((unmasked_db hash src).drop 0x20).getD k 0 ≠ 0)
    (h1 : ((unmasked_db hash src).drop 0x20).getD k 0 ≠ 1) :
    ∃ r, tkey_rsa_unwrap hash g dst dst_size src 0x100 = some r ∧ r.ret = 0 ∧ r.dst = dst := by
  rw [tkey_rsa_unwrap_cases hash hdig g dst dst_size src hlen]
  split
  · exact ⟨_, rfl, rfl, rfl⟩
  · rw [tkey_rsa_check_bad_padding _ _ _ _ _ k hk hz h0 h1]
    exact ⟨_, rfl, rfl, rfl⟩

/-- C9 at the region `00 00 02 01 33 .. 33`: the 0x02 at position 2 comes before
the 0x01 at position 3. -/
theorem tkey_rsa_unwrap_bad_padding_witness :
    ∃ r, tkey_rsa_unwrap toy_hash toy_globals (List.replicate 0xBF 0xFF) 0xBF
        (wrap_message toy_hash toy_salt
          (toy_expected_db ++ [0x00, 0x00, 0x02, 0x01] ++ List.replicate 187 0x33)) 0x100 = some r ∧
      r.ret = 0 ∧ r.dst = List.replicate 0xBF 0xFF :=
  tkey_rsa_unwrap_bad_padding toy_hash toy_hash_length toy_globals (List.replicate 0xBF 0xFF) 0xBF
    (wrap_message toy_hash toy_salt
      (toy_expected_db ++ [0x00, 0x00, 0x02, 0x01] ++ List.replicate 187 0x33))
    (by decide) (by decide) 2 (by decide) (by decide) (by decide) (by decide)

/-- C10: a 256-byte message whose unmasked data block is the expected prefix
followed by 191 zero bytes is rejected for every `dst_size`: the call returns 0
and `dst` is as it was. -/
theorem tkey_rsa_unwrap_no_separator (hash : List Nat → List Nat)
    (hdig : ∀ m, (hash m).length = 0x20) (g : TkeyGlobals) (dst : List Nat) (dst_size : Nat)
    (src : List Nat) (hlen : src.length = 0x100)
    (_hpre : (unmasked_db hash src).take 0x20 = TkeyGlobals.g_tkey_expected_db_prefix g)
    (hz : (unmasked_db hash src).drop 0x20 = List.replicate 0xBF 0) :
    ∃ r, tkey_rsa_unwrap hash g dst dst_size src 0x100 = some r ∧ r.ret = 0 ∧ r.dst = dst := by
  rw [tkey_rsa_unwrap_cases hash hdig g dst dst_size src hlen]
  split
  · exact ⟨_, rfl, rfl, rfl⟩
  · rw [tkey_rsa_check_no_separator _ _ _ _ _ (by
      intro j hj
      rw [hz, List.getD_eq_getElem?_getD, List.getElem?_replicate, if_pos hj]
      rfl)]
    exact ⟨_, rfl, rfl, rfl⟩

/-- C10 at the data block `toy_expected_db || 00 .. 00`, with room for 191 bytes
in `dst`. -/
theorem tkey_rsa_unwrap_no_separator_witness :
    ∃ r, tkey_rsa_unwrap toy_hash toy_globals (List.replicate 0xBF 0xFF) 0xBF
        (wrap_message toy_hash toy_salt (toy_expected_db ++ List.replicate 0xBF 0x00)) 0x100 =
          some r ∧
      r.ret = 0 ∧ r.dst = List.replicate 0xBF 0xFF :=
  tkey_rsa_unwrap_no_separator toy_hash toy_hash_length toy_globals (List.replicate 0xBF 0xFF) 0xBF
    (wrap_message toy_hash toy_salt (toy_expected_db ++ List.replicate 0xBF 0x00))
    (by decide) (by decide) (by decide)

/-- C11, as the code has it: on a 256-byte message whose unmasked data block has
the expected prefix, a separator 0x01 at position 0 of the 191 bytes after the
prefix is rejected (the call returns 0 and `dst` is as it was, for every
`dst_size`); a separator at position 1, after one zero byte, is accepted when
`dst_size` is at least 189 and yields the 189 bytes after it; and no accepted
ciphertext is longer than 189 bytes. -/
theorem tkey_rsa_unwrap_separator_at_zero (hash : List Nat → List Nat)
    (hdig : ∀ m, (hash m).length = 0x20) (g : TkeyGlobals) (dst : List Nat) (dst_size : Nat)
    (src : List Nat) (hlen : src.length = 0x100)
    (hpre : (unmasked_db hash src).take 0x20 = TkeyGlobals.g_tkey_expected_db_prefix g) :
    ∃ r, tkey_rsa_unwrap hash g dst dst_size src 0x100 = some r ∧
      (((unmasked_db hash src).drop 0x20).getD 0 0 = 1 → r.ret = 0 ∧ r.dst = dst) ∧
      (src.getD 0 0 = 0 → ((unmasked_db hash src).drop 0x20).getD 0 0 = 0 →
        ((unmasked_db hash src).drop 0x20).getD 1 0 = 1 → 189 ≤ dst_size →
        r.ret = 2 ∧ r.dst = ((unmasked_db hash src).drop 0x20).drop 2 ++ dst.drop 189 ∧
          (((unmasked_db hash src).drop 0x20).drop 2).length = 189) ∧
      (r.ret ≠ 0 → 0xBF - r.ret ≤ 189) := by
  rw [tkey_rsa_unwrap_cases hash hdig g dst dst_size src hlen]
  refine ⟨_, rfl, ?_, ?_, ?_⟩
  · intro h1
    split
    · exact ⟨rfl, rfl⟩
    · rw [tkey_rsa_check_first_nonzero _ _ _ _ _ (by rw [h1]; decide)]
      exact ⟨rfl, rfl⟩
  · intro h0 hz h1 hsz
    rw [if_neg (by rw [h0]; simp),
      tkey_rsa_check_accept _ _ _ _ _ (getD_of_take_eq _ _ hpre) 1 (by decide) (by decide)
        (by intro j hj; rw [show j = 0 by omega]; exact hz) h1 (by omega)]
    have hl := unmasked_region_length hash hdig src hlen 2
    exact ⟨rfl, memcpy_all _ _ _ hl, hl⟩
  · split
    · intro h; exact absurd rfl h
    · rcases tkey_rsa_check_cases (TkeyGlobals.g_tkey_expected_db_prefix g) dst dst_size
        (src.take 1 ++ unmasked_salt hash src ++ unmasked_db hash src) (unmasked_db hash src)
        with ⟨e, _⟩ | ⟨k, hk0, _, _, _, _, _, e⟩
      · rw [e]; intro h; exact absurd rfl h
      · rw [e]; intro _; show 0xBF - (k + 1) ≤ 189; omega

/-- C11 (amended) at the region `01 DE AD 00 .. 00` with room for 191 bytes in
`dst`: the call returns 0. -/
theorem tkey_rsa_unwrap_separator_at_zero_witness :
    ∃ r, tkey_rsa_unwrap toy_hash toy_globals (List.replicate 0xBF 0xFF) 0xBF
        (wrap_message toy_hash toy_salt
          (toy_expected_db ++ [0x01, 0xDE, 0xAD] ++ List.replicate 188 0x00)) 0x100 = some r ∧
      r.ret = 0 ∧ r.dst = List.replicate 0xBF 0xFF := by
  obtain ⟨r, hr, h1, _⟩ := tkey_rsa_unwrap_separator_at_zero toy_hash toy_hash_length toy_globals
    (List.replicate 0xBF 0xFF) 0xBF
    (wrap_message toy_hash toy_salt
      (toy_expected_db ++ [0x01, 0xDE, 0xAD] ++ List.replicate 188 0x00)) (by decide) (by decide)
  exact ⟨r, hr, h1 (by decide)⟩

/-- C11 fails at the data block `expected_prefix || 01 || 55 .. 55`: the
separator is at position 0, 190 bytes follow it and `dst` has room for 191,
yet the call returns 0 and `dst` is as it was. -/
theorem tkey_rsa_unwrap_separator_at_zero_rejected :
    ((toy_expected_db ++ [0x01] ++ List.replicate 190 0x55).drop 0x20).getD 0 0 = 0x01 ∧
    (toy_expected_db ++ [0x01] ++ List.replicate 190 0x55).take 0x20 =
      TkeyGlobals.g_tkey_expected_db_prefix toy_globals ∧
    tkey_rsa_unwrap toy_hash toy_globals (List.replicate 0xBF 0x00) 0xBF
        (wrap_message toy_hash toy_salt (toy_expected_db ++ [0x01] ++ List.replicate 190 0x55))
        0x100 =
      some ⟨0, List.replicate 0xBF 0x00,
        0x00 :: (toy_salt ++ (toy_expected_db ++ [0x01] ++ List.replicate 190 0x55))⟩ := by
  refine ⟨by decide, by decide, ?_⟩
  rw [tkey_rsa_unwrap_wrap toy_hash toy_hash_length toy_globals _ _ _ _ (by decide) (by decide),
    tkey_rsa_check_first_nonzero _ _ _ _ _ (by decide)]

/-- C12: a 256-byte message whose unmasked data block is the expected prefix,
190 zero bytes and the separator 0x01 at the last position is rejected for
every `dst_size`: the call returns 0 and `dst` is as it was. -/
theorem tkey_rsa_unwrap_zero_length (hash : List Nat → List Nat)
    (hdig : ∀ m, (hash m).length = 0x20) (g : TkeyGlobals) (dst : List Nat) (dst_size : Nat)
    (src : List Nat) (hlen : src.length = 0x100)
    (_hpre : (unmasked_db hash src).take 0x20 = TkeyGlobals.g_tkey_expected_db_prefix g)
    (hR : (unmasked_db hash src).drop 0x20 = List.replicate 190 0 ++ [0x01]) :
    ∃ r, tkey_rsa_unwrap hash g dst dst_size src 0x100 = some r ∧ r.ret = 0 ∧ r.dst = dst := by
  rw [tkey_rsa_unwrap_cases hash hdig g dst dst_size src hlen]
  split
  · exact ⟨_, rfl, rfl, rfl⟩
  · rw [tkey_rsa_check_size _ _ _ _ _ 190 (by decide)
      (by
        intro j hj
        rw [hR, List.getD_append _ _ _ _ (by rw [List.length_replicate]; exact hj),
          List.getD_eq_getElem?_getD, List.getElem?_replicate, if_pos hj]
        rfl)
      (by
        rw [hR, List.getD_append_right _ _ _ _ (by rw [List.length_replicate]),
          List.length_replicate, Nat.sub_self]
        rfl)
      (Or.inl rfl)]
    exact ⟨_, rfl, rfl, rfl⟩

/-- C12 at the data block `toy_expected_db || 00 .. 00 || 01`, with room for
191 bytes in `dst`. -/
theorem tkey_rsa_unwrap_zero_length_witness :
    ∃ r, tkey_rsa_unwrap toy_hash toy_globals (List.replicate 0xBF 0xFF) 0xBF
        (wrap_message toy_hash toy_salt (toy_expected_db ++ (List.replicate 190 0 ++ [0x01])))
        0x100 = some r ∧
      r.ret = 0 ∧ r.dst = List.replicate 0xBF 0xFF :=
  tkey_rsa_unwrap_zero_length toy_hash toy_hash_length toy_globals (List.replicate 0xBF 0xFF) 0xBF
    (wrap_message toy_hash toy_salt (toy_expected_db ++ (List.replicate 190 0 ++ [0x01])))
    (by decide) (by decide) (by decide)

/-- C13, as the code has it: on a 256-byte message with a zero first byte and
the expected prefix, whose 191 bytes after the prefix are `k` zero bytes and
then the separator at position `k`, so that `n = 190 - k` bytes follow the
separator: the call returns 0 and leaves `dst` as it was when `n > dst_size`;
it does the same for every `dst_size` when `k = 0` (line 111); and when
`k ≥ 1` and `0 < n ≤ dst_size` it succeeds, writes these `n` bytes to the
start of `dst` and nothing beyond them. -/
theorem tkey_rsa_unwrap_capacity (hash : List Nat → List Nat)
    (hdig : ∀ m, (hash m).length = 0x20) (g : TkeyGlobals) (dst : List Nat) (dst_size : Nat)
    (src : List Nat) (hlen : src.length = 0x100) (h0 : src.getD 0 0 = 0)
    (hpre : (unmasked_db hash src).take 0x20 = TkeyGlobals.g_tkey_expected_db_prefix g)
    (k : Nat) (hk : k < 0xBF)
    (hz : ∀ j, j < k → ((unmasked_db hash src).drop 0x20).getD j 0 = 0)
    (h1 : ((unmasked_db hash src).drop 0x20).getD k 0 = 1) :
    ∃ r, tkey_rsa_unwrap hash g dst dst_size src 0x100 = some r ∧
      (dst_size < 0xBE - k → r.ret = 0 ∧ r.dst = dst) ∧
      (k = 0 → r.ret = 0 ∧ r.dst = dst) ∧
      (0 < k → 0 < 0xBE - k → 0xBE - k ≤ dst_size →
        r.ret = k + 1 ∧
        r.dst = ((unmasked_db hash src).drop 0x20).drop (k + 1) ++ dst.drop (0xBE - k) ∧
        (((unmasked_db hash src).drop 0x20).drop (k + 1)).length = 0xBE - k) := by
  rw [tkey_rsa_unwrap_eq hash hdig g dst dst_size src hlen h0]
  refine ⟨_, rfl, ?_, ?_, ?_⟩
  · intro hsz
    rw [tkey_rsa_check_size _ _ _ _ _ k hk hz h1 (Or.inr hsz)]
    exact ⟨rfl, rfl⟩
  · intro hk0
    subst hk0
    rw [tkey_rsa_check_first_nonzero _ _ _ _ _ (by rw [h1]; decide)]
    exact ⟨rfl, rfl⟩
  · intro hk0 _ hsz
    rw [tkey_rsa_check_accept _ _ _ _ _ (getD_of_take_eq _ _ hpre) k hk0 (by omega) hz h1 hsz]
    have hl := unmasked_region_length hash hdig src hlen (k + 1)
    have e : 0xBF - (k + 1) = 0xBE - k := by omega
    rw [e] at hl
    exact ⟨rfl, memcpy_all _ _ _ hl, hl⟩

/-- C13 (amended) at a 7-byte ciphertext (separator at position 183): with a
`dst_size` of 6 the call returns 0 and `dst` is as it was; with a `dst_size`
of 7 it returns 184 and `dst` holds the seven bytes. -/
theorem tkey_rsa_unwrap_capacity_witness :
    (∃ r, tkey_rsa_unwrap toy_hash toy_globals (List.replicate 0x10 0xFF) 6 toy_message 0x100 =
        some r ∧
      r.ret = 0 ∧ r.dst = List.replicate 0x10 0xFF) ∧
    (∃ r, tkey_rsa_unwrap toy_hash toy_globals (List.replicate 7 0xFF) 7 toy_message 0x100 =
        some r ∧
      r.ret = 184 ∧ r.dst = toy_ciphertext) := by
  constructor
  · obtain ⟨r, hr, h1, _⟩ := tkey_rsa_unwrap_capacity toy_hash toy_hash_length toy_globals
      (List.replicate 0x10 0xFF) 6 toy_message toy_message_length (by decide) (by decide) 183
      (by decide) (by decide) (by decide)
    exact ⟨r, hr, h1 (by decide)⟩
  · obtain ⟨r, hr, _, _, h3⟩ := tkey_rsa_unwrap_capacity toy_hash toy_hash_length toy_globals
      (List.replicate 7 0xFF) 7 toy_message toy_message_length (by decide) (by decide) 183
      (by decide) (by decide) (by decide)
    obtain ⟨e1, e2, _⟩ := h3 (by decide) (by decide) (by decide)
    exact ⟨r, hr, e1, e2.trans (by decide)⟩

/-- C13 fails at the data block `expected_prefix || 01 || 77 .. 77`: the first
byte of the message is zero, the prefix is the expected one, the separator is
at position 0 and the `n = 190` bytes after it fit a `dst_size` of 190 and one
of 300, yet both calls return 0 and leave `dst` as it was. -/
theorem tkey_rsa_unwrap_capacity_fails_at_190 :
    (toy_expected_db ++ [0x01] ++ List.replicate 190 0x77).take 0x20 =
      TkeyGlobals.g_tkey_expected_db_prefix toy_globals ∧
    ((toy_expected_db ++ [0x01] ++ List.replicate 190 0x77).drop 0x20).getD 0 0 = 0x01 ∧
    (((toy_expected_db ++ [0x01] ++ List.replicate 190 0x77).drop 0x20).drop 1).length = 190 ∧
    tkey_rsa_unwrap toy_hash toy_globals (List.replicate 190 0x00) 190
        (wrap_message toy_hash toy_salt (toy_expected_db ++ [0x01] ++ List.replicate 190 0x77))
        0x100 =
      some ⟨0, List.replicate 190 0x00,
        0x00 :: (toy_salt ++ (toy_expected_db ++ [0x01] ++ List.replicate 190 0x77))⟩ ∧
    tkey_rsa_unwrap toy_hash toy_globals (List.replicate 300 0x00) 300
        (wrap_message toy_hash toy_salt (toy_expected_db ++ [0x01] ++ List.replicate 190 0x77))
        0x100 =
      some ⟨0, List.replicate 300 0x00,
        0x00 :: (toy_salt ++ (toy_expected_db ++ [0x01] ++ List.replicate 190 0x77))⟩ := by
  refine ⟨by decide, by decide, by decide, ?_, ?_⟩
  · rw [tkey_rsa_unwrap_wrap toy_hash toy_hash_length toy_globals _ _ _ _ (by decide) (by decide),
      tkey_rsa_check_first_nonzero _ _ _ _ _ (by decide)]
  · rw [tkey_rsa_unwrap_wrap toy_hash toy_hash_length toy_globals _ _ _ _ (by decide) (by decide),
      tkey_rsa_check_first_nonzero _ _ _ _ _ (by decide)]

/-- C14: when the call on a 256-byte message succeeds (returns non-zero), the
191 bytes after the prefix of the unmasked data block are `k` zero bytes and a
0x01 at position `k`, and `dst` starts with all the bytes after that first
0x01 up to the end of the block, unchanged (whatever their values), followed
by the bytes of `dst` that were there before. -/
theorem tkey_rsa_unwrap_verbatim (hash : List Nat → List Nat)
    (hdig : ∀ m, (hash m).length = 0x20) (g : TkeyGlobals) (dst : List Nat) (dst_size : Nat)
    (src : List Nat) (hlen : src.length = 0x100) (r : RsaUnwrap)
    (hr : tkey_rsa_unwrap hash g dst dst_size src 0x100 = some r) (hs : r.ret ≠ 0) :
    ∃ k, k < 0xBE ∧ (∀ j, j < k → ((unmasked_db hash src).drop 0x20).getD j 0 = 0) ∧
      ((unmasked_db hash src).drop 0x20).getD k 0 = 1 ∧
      r.dst = ((unmasked_db hash src).drop 0x20).drop (k + 1) ++ dst.drop (0xBE - k) ∧
      (((unmasked_db hash src).drop 0x20).drop (k + 1)).length = 0xBE - k := by
  rw [tkey_rsa_unwrap_cases hash hdig g dst dst_size src hlen] at hr
  have hr := (Option.some.inj hr).symm
  subst hr
  split at hs
  · exact absurd rfl hs
  · rcases tkey_rsa_check_cases (TkeyGlobals.g_tkey_expected_db_prefix g) dst dst_size
      (src.take 1 ++ unmasked_salt hash src ++ unmasked_db hash src) (unmasked_db hash src)
      with ⟨e, _⟩ | ⟨k, _, hk, _, hz, h1, _, e⟩
    · rw [e] at hs
      exact absurd rfl hs
    · have hl := unmasked_region_length hash hdig src hlen (k + 1)
      have e2 : 0xBF - (k + 1) = 0xBE - k := by omega
      rw [e2] at hl
      refine ⟨k, hk, hz, h1, ?_, hl⟩
      rw [if_neg (by assumption), e]
      exact memcpy_all _ _ _ hl

/-- C14 at `toy_message`: the seven bytes after the separator, with their inner
0x01 and their zero bytes, are at the start of `dst`. -/
theorem tkey_rsa_unwrap_verbatim_witness :
    (∃ k, k < 0xBE ∧
      (∀ j, j < k → ((unmasked_db toy_hash toy_message).drop 0x20).getD j 0 = 0) ∧
      ((unmasked_db toy_hash toy_message).drop 0x20).getD k 0 = 1 ∧
      toy_ciphertext ++ List.replicate 9 0xFF =
        ((unmasked_db toy_hash toy_message).drop 0x20).drop (k + 1) ++
          (List.replicate 0x10 0xFF).drop (0xBE - k) ∧
      (((unmasked_db toy_hash toy_message).drop 0x20).drop (k + 1)).length = 0xBE - k) :=
  tkey_rsa_unwrap_verbatim toy_hash toy_hash_length toy_globals (List.replicate 0x10 0xFF) 0x10
    toy_message toy_message_length _ toy_message_unwrap (by decide)

/-- C15, as the code has it: when the call on a 256-byte message succeeds, the
value returned is the offset of the first ciphertext byte in the 191 bytes that
follow the prefix of the data block, a value from 2 to 190; the bytes copied to
`dst` are the bytes of the unmasked message from index `0x41 + ret` to its
end. -/
theorem tkey_rsa_unwrap_returns_region_offset (hash : List Nat → List Nat)
    (hdig : ∀ m, (hash m).length = 0x20) (g : TkeyGlobals) (dst : List Nat) (dst_size : Nat)
    (src : List Nat) (hlen : src.length = 0x100) (r : RsaUnwrap)
    (hr : tkey_rsa_unwrap hash g dst dst_size src 0x100 = some r) (hs : r.ret ≠ 0) :
    2 ≤ r.ret ∧ r.ret ≤ 0xBE ∧
    r.src = src.take 1 ++ unmasked_salt hash src ++ unmasked_db hash src ∧
    r.dst = r.src.drop (0x41 + r.ret) ++ dst.drop (0xBF - r.ret) ∧
    (r.src.drop (0x41 + r.ret)).length = 0xBF - r.ret ∧
    r.src.drop (0x41 + r.ret) = ((unmasked_db hash src).drop 0x20).drop r.ret := by
  rw [tkey_rsa_unwrap_cases hash hdig g dst dst_size src hlen] at hr
  have hr := (Option.some.inj hr).symm
  subst hr
  split at hs
  · exact absurd rfl hs
  · rcases tkey_rsa_check_cases (TkeyGlobals.g_tkey_expected_db_prefix g) dst dst_size
      (src.take 1 ++ unmasked_salt hash src ++ unmasked_db hash src) (unmasked_db hash src)
      with ⟨e, _⟩ | ⟨k, hk0, hk, _, _, _, _, e⟩
    · rw [e] at hs
      exact absurd rfl hs
    · have hl := unmasked_region_length hash hdig src hlen (k + 1)
      have hd := unmasked_message_drop hash hdig src hlen (k + 1)
      rw [if_neg (by assumption), e]
      have e2 : 0xBF - (k + 1) = 0xBE - k := by omega
      rw [e2] at hl
      refine ⟨?_, ?_, rfl, ?_, ?_, ?_⟩
      · show 2 ≤ k + 1
        omega
      · show k + 1 ≤ 0xBE
        omega
      · show memcpy dst (((unmasked_db hash src).drop 0x20).drop (k + 1)) (0xBE - k) =
          (src.take 1 ++ unmasked_salt hash src ++ unmasked_db hash src).drop (0x41 + (k + 1)) ++
            dst.drop (0xBF - (k + 1))
        rw [hd, e2]
        exact memcpy_all _ _ _ hl
      · show ((src.take 1 ++ unmasked_salt hash src ++ unmasked_db hash src).drop
          (0x41 + (k + 1))).length = 0xBF - (k + 1)
        rw [hd, hl, e2]
      · exact hd

/-- C15 (amended) at `toy_message`: the value returned is 184 and the seven
bytes copied are bytes 249..255 of the unmasked message. -/
theorem tkey_rsa_unwrap_returns_region_offset_witness :
    ((0x00 :: (toy_salt ++ data_block toy_expected_db toy_ciphertext)).drop (0x41 + 184)) =
      toy_ciphertext ∧
    toy_ciphertext ++ List.replicate 9 0xFF =
      (0x00 :: (toy_salt ++ data_block toy_expected_db toy_ciphertext)).drop (0x41 + 184) ++
        (List.replicate 0x10 0xFF).drop (0xBF - 184) :=
  ⟨by decide,
    (tkey_rsa_unwrap_returns_region_offset toy_hash toy_hash_length toy_globals
      (List.replicate 0x10 0xFF) 0x10 toy_message toy_message_length _ toy_message_unwrap
      (by decide)).2.2.2.1⟩

/-- C15 fails at `toy_message`: the call returns 184, but the first byte copied
to `dst` (0xDE) is byte 249 of the message; byte 184 is a padding byte, in the
message as received and in the message as unmasked in place. -/
theorem tkey_rsa_unwrap_offset_not_absolute :
    ∃ r, tkey_rsa_unwrap toy_hash toy_globals (List.replicate 0x10 0xFF) 0x10 toy_message
        0x100 = some r ∧
      r.ret = 184 ∧ r.dst.take 7 = toy_ciphertext ∧
      (r.src.drop 249).take 7 = toy_ciphertext ∧
      (r.src.drop r.ret).take 7 ≠ toy_ciphertext ∧
      r.src.getD r.ret 0 ≠ r.dst.getD 0 0 ∧
      toy_message.getD r.ret 0 ≠ r.dst.getD 0 0 :=
  ⟨_, toy_message_unwrap, rfl, by decide, by decide, by decide, by decide, by decide⟩

/-- C16: whenever the call on a 256-byte message returns 0, `dst` is
byte for byte what it was before the call, for every hash, expected prefix and
`dst_size`. -/
theorem tkey_rsa_unwrap_all_or_nothing (hash : List Nat → List Nat) (g : TkeyGlobals)
    (dst : List Nat) (dst_size : Nat) (src : List Nat) (_hlen : src.length = 0x100)
    (r : RsaUnwrap) (hr : tkey_rsa_unwrap hash g dst dst_size src 0x100 = some r)
    (h0 : r.ret = 0) : r.dst = dst := by
  rcases tkey_rsa_unwrap_some hash g dst dst_size src 0x100 r hr with e | ⟨message, db, e⟩
  · rw [e]
  · rw [e] at h0 ⊢
    rw [tkey_rsa_check_ret_zero _ _ _ _ _ h0]

/-- C16 at `toy_message` with room for 6 bytes: the call returns 0 and the 16
bytes of `dst` are as they were. -/
theorem tkey_rsa_unwrap_all_or_nothing_witness :
    tkey_rsa_unwrap toy_hash toy_globals (List.replicate 0x10 0xFF) 6 toy_message 0x100 =
      some ⟨0, List.replicate 0x10 0xFF,
        0x00 :: (toy_salt ++ data_block toy_expected_db toy_ciphertext)⟩ ∧
    (⟨0, List.replicate 0x10 0xFF,
        0x00 :: (toy_salt ++ data_block toy_expected_db toy_ciphertext)⟩ : RsaUnwrap).dst =
      List.replicate 0x10 0xFF :=
  ⟨toy_message_unwrap_small,
    tkey_rsa_unwrap_all_or_nothing toy_hash toy_globals (List.replicate 0x10 0xFF) 6 toy_message
      toy_message_length _ toy_message_unwrap_small rfl⟩

/-- C17: for any two calls on 256-byte messages, each returns 0 exactly when
it is on one of the rejection paths of `tkey_rejects` (so a successful call
never returns 0), and two rejected calls return the same value, 0, each with
its `dst` as it was. -/
theorem tkey_rsa_unwrap_rejections_alike (hash : List Nat → List Nat)
    (hdig : ∀ m, (hash m).length = 0x20) (g1 g2 : TkeyGlobals) (dst1 dst2 : List Nat)
    (dst_size1 dst_size2 : Nat) (src1 src2 : List Nat)
    (hp1 : (TkeyGlobals.g_tkey_expected_db_prefix g1).length = 0x20)
    (hp2 : (TkeyGlobals.g_tkey_expected_db_prefix g2).length = 0x20)
    (hlen1 : src1.length = 0x100) (hlen2 : src2.length = 0x100) :
    ∃ r1 r2, tkey_rsa_unwrap hash g1 dst1 dst_size1 src1 0x100 = some r1 ∧
      tkey_rsa_unwrap hash g2 dst2 dst_size2 src2 0x100 = some r2 ∧
      (tkey_rejects hash g1 dst_size1 src1 ↔ r1.ret = 0) ∧
      (tkey_rejects hash g2 dst_size2 src2 ↔ r2.ret = 0) ∧
      (tkey_rejects hash g1 dst_size1 src1 → tkey_rejects hash g2 dst_size2 src2 →
        r1.ret = r2.ret ∧ r1.dst = dst1 ∧ r2.dst = dst2) := by
  obtain ⟨r1, e1, i1, d1⟩ := tkey_rsa_unwrap_rejects_iff hash hdig g1 dst1 dst_size1 src1 hp1 hlen1
  obtain ⟨r2, e2, i2, d2⟩ := tkey_rsa_unwrap_rejects_iff hash hdig g2 dst2 dst_size2 src2 hp2 hlen2
  refine ⟨r1, r2, e1, e2, i1, i2, ?_⟩
  intro h1 h2
  have z1 := i1.mp h1
  have z2 := i2.mp h2
  exact ⟨by rw [z1, z2], d1 z1, d2 z2⟩

/-- C17 at two rejected messages, one with a bad leading byte and one with a
0x02 in the padding: both calls return 0. -/
theorem tkey_rsa_unwrap_rejections_alike_witness :
    ∃ r1 r2, tkey_rsa_unwrap toy_hash toy_globals (List.replicate 0x10 0xFF) 0x10
        (0x01 :: List.replicate 0xFF 0xFF) 0x100 = some r1 ∧
      tkey_rsa_unwrap toy_hash toy_globals (List.replicate 0xBF 0x00) 0xBF
        (wrap_message toy_hash toy_salt
          (toy_expected_db ++ [0x00, 0x00, 0x02, 0x01] ++ List.replicate 187 0x33)) 0x100 =
        some r2 ∧
      r1.ret = r2.ret ∧ r1.dst = List.replicate 0x10 0xFF ∧ r2.dst = List.replicate 0xBF 0x00 := by
  obtain ⟨r1, r2, e1, e2, _, _, h⟩ := tkey_rsa_unwrap_rejections_alike toy_hash toy_hash_length
    toy_globals toy_globals (List.replicate 0x10 0xFF) (List.replicate 0xBF 0x00) 0x10 0xBF
    (0x01 :: List.replicate 0xFF 0xFF)
    (wrap_message toy_hash toy_salt
      (toy_expected_db ++ [0x00, 0x00, 0x02, 0x01] ++ List.replicate 187 0x33))
    (by decide) (by decide) (by rw [List.length_cons, List.length_replicate]) (by decide)
  exact ⟨r1, r2, e1, e2,
    h (Or.inl (by decide))
      (Or.inr (Or.inr (Or.inr (Or.inl ⟨2, by decide, by decide, by decide, by decide⟩))))⟩

/-- C18: for a hash with 32-byte digests, a 223-byte data block (well formed or
not) and two 32-byte salts, the two messages the specification builds from the
block and each salt give the same return value and the same `dst`. -/
theorem tkey_rsa_unwrap_salt_irrelevant (hash : List Nat → List Nat)
    (hdig : ∀ m, (hash m).length = 0x20) (g : TkeyGlobals) (dst : List Nat) (dst_size : Nat)
    (DB s1 s2 : List Nat) (hd : DB.length = 0xDF) (h1 : s1.length = 0x20)
    (h2 : s2.length = 0x20) :
    ∃ r1 r2, tkey_rsa_unwrap hash g dst dst_size (wrap_message hash s1 DB) 0x100 = some r1 ∧
      tkey_rsa_unwrap hash g dst dst_size (wrap_message hash s2 DB) 0x100 = some r2 ∧
      r1.ret = r2.ret ∧ r1.dst = r2.dst := by
  obtain ⟨e1, e2, _⟩ := tkey_rsa_check_message (TkeyGlobals.g_tkey_expected_db_prefix g) dst
    dst_size (0x00 :: (s1 ++ DB)) (0x00 :: (s2 ++ DB)) DB
  exact ⟨_, _, tkey_rsa_unwrap_wrap hash hdig g dst dst_size s1 DB h1 hd,
    tkey_rsa_unwrap_wrap hash hdig g dst dst_size s2 DB h2 hd, e1, e2⟩

/-- C18 at the data block of `toy_message` and the salts `toy_salt` and
`00 .. 00`: the messages differ, the results do not. -/
theorem tkey_rsa_unwrap_salt_irrelevant_witness :
    wrap_message toy_hash toy_salt (data_block toy_expected_db toy_ciphertext) ≠
      wrap_message toy_hash (List.replicate 0x20 0x00)
        (data_block toy_expected_db toy_ciphertext) ∧
    ∃ r1 r2, tkey_rsa_unwrap toy_hash toy_globals (List.replicate 0x10 0xFF) 0x10
        (wrap_message toy_hash toy_salt (data_block toy_expected_db toy_ciphertext)) 0x100 =
          some r1 ∧
      tkey_rsa_unwrap toy_hash toy_globals (List.replicate 0x10 0xFF) 0x10
        (wrap_message toy_hash (List.replicate 0x20 0x00)
          (data_block toy_expected_db toy_ciphertext)) 0x100 = some r2 ∧
      r1.ret = r2.ret ∧ r1.dst = r2.dst :=
  ⟨by decide,
    tkey_rsa_unwrap_salt_irrelevant toy_hash toy_hash_length toy_globals
      (List.replicate 0x10 0xFF) 0x10 (data_block toy_expected_db toy_ciphertext) toy_salt
      (List.replicate 0x20 0x00) (by decide) (by decide) (by decide)⟩

/-- C19: `tkey_rsa_unwrap` panics exactly when `src_size` is not 0x100; with
`src_size = 0x100` it returns, for every hash, expected prefix, message, `dst`
and `dst_size`; and its two calls of `calculate_mgf1_and_xor`, with seed sizes
0xDF and 0x20, do not panic whatever the buffers hold. -/
theorem tkey_rsa_unwrap_panic_iff (hash : List Nat → List Nat) (g : TkeyGlobals)
    (dst : List Nat) (dst_size : Nat) (src : List Nat) (src_size : Nat) :
    (tkey_rsa_unwrap hash g dst dst_size src src_size = none ↔ src_size ≠ 0x100) ∧
    (∃ r, tkey_rsa_unwrap hash g dst dst_size src 0x100 = some r) ∧
    (∀ masked seed : List Nat,
      calculate_mgf1_and_xor hash masked 0x20 seed 0xDF ≠ none ∧
      calculate_mgf1_and_xor hash masked 0xDF seed 0x20 ≠ none) := by
  have hcalls : ∀ masked seed : List Nat,
      calculate_mgf1_and_xor hash masked 0x20 seed 0xDF ≠ none ∧
      calculate_mgf1_and_xor hash masked 0xDF seed 0x20 ≠ none := by
    intro masked seed
    constructor
    · intro e
      exact absurd ((calculate_mgf1_and_xor_none_iff hash masked 0x20 seed 0xDF).mp e) (by decide)
    · intro e
      exact absurd ((calculate_mgf1_and_xor_none_iff hash masked 0xDF seed 0x20).mp e) (by decide)
  have hret : ∀ m : List Nat, ∃ r, tkey_rsa_unwrap hash g dst dst_size m 0x100 = some r := by
    intro m
    unfold tkey_rsa_unwrap
    rw [if_neg (by simp)]
    simp only
    split
    · exact ⟨_, rfl⟩
    · split
      · rename_i e
        exact absurd e (hcalls _ _).1
      · split
        · rename_i e
          exact absurd e (hcalls _ _).2
        · exact ⟨_, rfl⟩
  refine ⟨?_, hret src, hcalls⟩
  by_cases hs : src_size = 0x100
  · subst hs
    obtain ⟨r, hr⟩ := hret src
    rw [hr]
    exact ⟨fun e => Option.noConfusion e, fun h => absurd rfl h⟩
  · refine ⟨fun _ => hs, fun _ => ?_⟩
    unfold tkey_rsa_unwrap
    rw [if_pos hs]

/-- C20: `calculate_mgf1_and_xor` panics exactly when `seed_size` is 0xE0 or
more, whatever the buffer and its length (0 included); below 0xE0 it returns. -/
theorem calculate_mgf1_and_xor_panic_iff (hash : List Nat → List Nat) (masked : List Nat)
    (masked_size : Nat) (seed : List Nat) (seed_size : Nat) :
    (calculate_mgf1_and_xor hash masked masked_size seed seed_size = none ↔ seed_size ≥ 0xE0) ∧
    (seed_size ≥ 0xE0 → calculate_mgf1_and_xor hash masked 0 seed seed_size = none) ∧
    (seed_size < 0xE0 →
      ∃ out, calculate_mgf1_and_xor hash masked masked_size seed seed_size = some out) := by
  refine ⟨calculate_mgf1_and_xor_none_iff hash masked masked_size seed seed_size,
    (calculate_mgf1_and_xor_none_iff hash masked 0 seed seed_size).mpr, ?_⟩
  intro h
  unfold calculate_mgf1_and_xor
  rw [if_neg (by omega)]
  exact ⟨_, rfl⟩

/-- C22: `tkey_set_expected_db_prefix p` on 32 bytes `p` leaves the 32 bytes
of `p`, in their order, in `g_tkey_expected_db_prefix` (the bytes lines 99-103
of `tkey_rsa_unwrap` compare with), and leaves `g_tkey_master_key_rev` as it
was. -/
theorem tkey_set_expected_db_prefix_stores (p : List Nat) (g : TkeyGlobals)
    (hg : (TkeyGlobals.g_tkey_expected_db_prefix g).length = 0x20) (hp : p.length = 0x20) :
    TkeyGlobals.g_tkey_expected_db_prefix ( tkey_set_expected_db_prefix p g) = p ∧
    TkeyGlobals.g_tkey_master_key_rev ( tkey_set_expected_db_prefix p g) =
      TkeyGlobals.g_tkey_master_key_rev g := by
  refine ⟨?_, rfl⟩
  show (List.range 4).foldl
    (fun a i => a.take (8 * i) ++ memcpy (a.drop (8 * i)) (List.drop (8 * i) p) 8)
    (TkeyGlobals.g_tkey_expected_db_prefix g) = p
  have h4 : List.range 4 = [0, 1, 2, 3] := rfl
  rw [h4]
  simp only [List.foldl_cons, List.foldl_nil]
  have s0 := set_expected_step p (TkeyGlobals.g_tkey_expected_db_prefix g) 0 (by omega)
  have s1 := set_expected_step p ((TkeyGlobals.g_tkey_expected_db_prefix g).drop 8) 8 (by omega)
  have s2 := set_expected_step p (((TkeyGlobals.g_tkey_expected_db_prefix g).drop 8).drop 8) 16
    (by omega)
  have s3 := set_expected_step p
    ((((TkeyGlobals.g_tkey_expected_db_prefix g).drop 8).drop 8).drop 8) 24 (by omega)
  simp only [List.take_zero, List.nil_append, Nat.zero_add] at s0
  simp only [Nat.mul_zero, Nat.mul_one, Nat.reduceMul, List.take_zero, List.nil_append]
  rw [s0, s1, s2, s3]
  rw [List.drop_drop, List.drop_drop, List.drop_drop,
    List.drop_of_length_le (by rw [hg]), List.append_nil, List.take_of_length_le (by rw [hp])]

/-- C22 at the start-up state and the 32 bytes `toy_expected_db`. -/
theorem tkey_set_expected_db_prefix_stores_witness :
    TkeyGlobals.g_tkey_expected_db_prefix ( tkey_set_expected_db_prefix toy_expected_db
        (tkey_initial 5)) = toy_expected_db ∧
    TkeyGlobals.g_tkey_master_key_rev ( tkey_set_expected_db_prefix toy_expected_db
        (tkey_initial 5)) = 5 :=
  tkey_set_expected_db_prefix_stores toy_expected_db (tkey_initial 5) (by decide) (by decide)

/-- C23: on a 256-byte message, with `DB` the unmasked data block and `R` its
191 bytes after the prefix, `tkey_rsa_unwrap` returns non-zero exactly when the
first byte of the message is 0, the first 32 bytes of `DB` are the stored
expected prefix, and some `k` from 1 to 189 has `R[j] = 0` for all `j < k`,
`R[k] = 1` and `190 - k ≤ dst_size`; for such a `k` the call returns `k + 1`
and `dst` starts with the `190 - k` bytes `R[k+1 .. 191)`. -/
theorem tkey_rsa_unwrap_accepts_iff (hash : List Nat → List Nat)
    (hdig : ∀ m, (hash m).length = 0x20) (g : TkeyGlobals) (dst : List Nat) (dst_size : Nat)
    (src : List Nat) (hp : (TkeyGlobals.g_tkey_expected_db_prefix g).length = 0x20)
    (hlen : src.length = 0x100) :
    ∃ r, tkey_rsa_unwrap hash g dst dst_size src 0x100 = some r ∧
      (r.ret ≠ 0 ↔
        (src.getD 0 0 = 0 ∧
         (unmasked_db hash src).take 0x20 = TkeyGlobals.g_tkey_expected_db_prefix g ∧
         ∃ k, 1 ≤ k ∧ k ≤ 189 ∧
           (∀ j, j < k → ((unmasked_db hash src).drop 0x20).getD j 0 = 0) ∧
           ((unmasked_db hash src).drop 0x20).getD k 0 = 1 ∧ 190 - k ≤ dst_size)) ∧
      (∀ k, src.getD 0 0 = 0 →
        (unmasked_db hash src).take 0x20 = TkeyGlobals.g_tkey_expected_db_prefix g →
        1 ≤ k → k ≤ 189 →
        (∀ j, j < k → ((unmasked_db hash src).drop 0x20).getD j 0 = 0) →
        ((unmasked_db hash src).drop 0x20).getD k 0 = 1 → 190 - k ≤ dst_size →
        r.ret = k + 1 ∧
        r.dst = ((unmasked_db hash src).drop 0x20).drop (k + 1) ++ dst.drop (190 - k) ∧
        (((unmasked_db hash src).drop 0x20).drop (k + 1)).length = 190 - k) := by
  refine ⟨_, tkey_rsa_unwrap_cases hash hdig g dst dst_size src hlen, ?_, ?_⟩
  · by_cases h0 : src.getD 0 0 ≠ 0
    · rw [if_pos h0]
      exact ⟨fun h => absurd rfl h, fun h => absurd h.1 h0⟩
    · rw [if_neg h0]
      have h0z : src.getD 0 0 = 0 := by
        by_contra h
        exact h0 h
      rcases tkey_rsa_check_cases (TkeyGlobals.g_tkey_expected_db_prefix g) dst dst_size
        (src.take 1 ++ unmasked_salt hash src ++ unmasked_db hash src) (unmasked_db hash src)
        with ⟨e, why⟩ | ⟨k, hk0, hk, hpre, hz, h1, hsz, e⟩
      · rw [e]
        refine ⟨fun h => absurd rfl h, ?_⟩
        rintro ⟨_, hpre, k, hk1, hk2, hz, h1, hsz⟩
        exfalso
        rcases why with ⟨i, hi, hne⟩ | h | ⟨k2, _, hz2, hn0, hn1⟩ | h | ⟨k2, _, hz2, h12, hsz2⟩
        · exact hne (getD_of_take_eq _ _ hpre i hi)
        · exact h (hz 0 (by omega))
        · rcases Nat.lt_trichotomy k k2 with hlt | heq | hgt
          · have := hz2 k hlt
            rw [h1] at this
            exact absurd this (by decide)
          · subst heq
            exact hn1 h1
          · exact hn0 (hz k2 hgt)
        · have := h k (by omega)
          rw [h1] at this
          exact absurd this (by decide)
        · have := first_one_unique _ k k2 hz h1 hz2 h12
          subst this
          omega
      · rw [e]
        refine ⟨fun _ => ⟨h0z, ?_, k, by omega, by omega, hz, h1, by omega⟩,
          fun _ => Nat.succ_ne_zero k⟩
        exact take_eq_of_getD _ _ hp (by rw [unmasked_db_length hash hdig src hlen]; decide) hpre
  · intro k h0 hpre hk1 hk2 hz h1 hsz
    rw [if_neg (by rw [h0]; simp),
      tkey_rsa_check_accept _ _ _ _ _ (getD_of_take_eq _ _ hpre) k (by omega) (by omega) hz h1
        (by omega)]
    have hl := unmasked_region_length hash hdig src hlen (k + 1)
    have e : 0xBF - (k + 1) = 190 - k := by omega
    rw [e] at hl
    exact ⟨rfl, memcpy_all _ _ _ hl, hl⟩

/-- C23 at `toy_message` with a 16-byte `dst`: the condition holds with
`k = 183`, so the call returns 184. -/
theorem tkey_rsa_unwrap_accepts_iff_witness :
    ∃ r, tkey_rsa_unwrap toy_hash toy_globals (List.replicate 0x10 0xFF) 0x10 toy_message
        0x100 = some r ∧
      r.ret = 184 ∧ r.dst = toy_ciphertext ++ List.replicate 9 0xFF := by
  obtain ⟨r, hr, _, h⟩ := tkey_rsa_unwrap_accepts_iff toy_hash toy_hash_length toy_globals
    (List.replicate 0x10 0xFF) 0x10 toy_message (by decide) toy_message_length
  obtain ⟨h1, h2, _⟩ := h 183 (by decide) (by decide) (by decide) (by decide) (by decide)
    (by decide) (by decide)
  exact ⟨r, hr, h1, h2.trans (by decide)⟩

/-- C24: from the start-up state, after any finite sequence of calls of
`tkey_set_expected_db_prefix`, `tkey_set_master_key_rev` and `tkey_rsa_unwrap`
none of which panics, `g_tkey_master_key_rev` is still `MASTERKEY_REVISION_MAX`,
and `tkey_aes_unwrap` in that state panics for every input, with the key slots
and `dst` untouched. -/
theorem tkey_master_key_rev_stays_max (MASTERKEY_REVISION_MAX : Nat)
    (hash : List Nat → List Nat) (calls : List TkeyCall) (g : TkeyGlobals)
    (h : tkey_calls MASTERKEY_REVISION_MAX hash (tkey_initial MASTERKEY_REVISION_MAX) calls =
      some g) :
    TkeyGlobals.g_tkey_master_key_rev g = MASTERKEY_REVISION_MAX ∧
    ∀ (KEYSLOT_SWITCH_TEMPKEY : Nat) (mkey_get_keyslot : Nat → Nat)
      (aes_ecb_decrypt : List Nat → List Nat → List Nat) (keyslots : Nat → List Nat)
      (dst : List Nat) (dst_size : Nat) (src : List Nat) (src_size : Nat),
      tkey_aes_unwrap MASTERKEY_REVISION_MAX KEYSLOT_SWITCH_TEMPKEY mkey_get_keyslot
        aes_ecb_decrypt g keyslots dst dst_size src src_size = Exit.panicked ⟨keyslots, dst⟩ := by
  have hrev : TkeyGlobals.g_tkey_master_key_rev g = MASTERKEY_REVISION_MAX :=
    tkey_calls_keep_rev MASTERKEY_REVISION_MAX hash calls _ g h
  refine ⟨hrev, ?_⟩
  intro T mkey aes keyslots dst dst_size src src_size
  unfold tkey_aes_unwrap
  rw [if_pos (Or.inl (Nat.le_of_eq hrev.symm))]

/-- C24 at `MASTERKEY_REVISION_MAX = 5` and the calls
`tkey_set_master_key_rev(4)`, `tkey_set_expected_db_prefix`, `tkey_rsa_unwrap`
on `toy_message`: the revision is 5 afterwards and `tkey_aes_unwrap` on
16-byte buffers panics. -/
theorem tkey_master_key_rev_stays_max_witness :
    tkey_calls 5 toy_hash (tkey_initial 5)
        [TkeyCall.master_key_rev 4,
         TkeyCall.rsa_unwrap (List.replicate 0x10 0xFF) 0x10 toy_message 0x100] =
      some (tkey_initial 5) ∧
    TkeyGlobals.g_tkey_master_key_rev (tkey_initial 5) = 5 ∧
    tkey_aes_unwrap 5 9 (fun rev => 12 - rev) toy_aes (tkey_initial 5) toy_keyslots
        (List.replicate 0x10 0) 0x10 (List.range 0x10) 0x10 =
      Exit.panicked ⟨toy_keyslots, List.replicate 0x10 0⟩ := by
  have hc : tkey_calls 5 toy_hash (tkey_initial 5)
      [TkeyCall.master_key_rev 4,
       TkeyCall.rsa_unwrap (List.replicate 0x10 0xFF) 0x10 toy_message 0x100] =
      some (tkey_initial 5) := by
    obtain ⟨r, hr⟩ : ∃ r, tkey_rsa_unwrap toy_hash (tkey_initial 5) (List.replicate 0x10 0xFF)
        0x10 toy_message 0x100 = some r :=
      ⟨_, tkey_rsa_unwrap_cases toy_hash toy_hash_length (tkey_initial 5) _ _ toy_message
        toy_message_length⟩
    have h1 : tkey_call 5 toy_hash (tkey_initial 5) (TkeyCall.master_key_rev 4) =
        some (tkey_initial 5) := by
      simp only [tkey_call, tkey_set_master_key_rev]
      rw [if_neg (by decide)]
    simp only [tkey_calls, h1, tkey_call_rsa_unwrap 5 toy_hash (tkey_initial 5) _ _ _ r hr]
  obtain ⟨e1, e2⟩ := tkey_master_key_rev_stays_max 5 toy_hash _ _ hc
  exact ⟨hc, e1, e2 9 (fun rev => 12 - rev) toy_aes toy_keyslots (List.replicate 0x10 0) 0x10
    (List.range 0x10) 0x10⟩

/-- C25: on a 256-byte message, a call that finds a non-zero first byte leaves
the message as it was; otherwise, whether it then succeeds or rejects, byte 0
is as it was, bytes 1..32 hold the unmasked salt
(`maskedSalt xor MGF1(maskedDB)`) and bytes 33..255 the unmasked data block
(`maskedDB xor MGF1(salt)`). -/
theorem tkey_rsa_unwrap_message_effect (hash : List Nat → List Nat)
    (hdig : ∀ m, (hash m).length = 0x20) (g : TkeyGlobals) (dst : List Nat) (dst_size : Nat)
    (src : List Nat) (hlen : src.length = 0x100) :
    ∃ r, tkey_rsa_unwrap hash g dst dst_size src 0x100 = some r ∧
      (src.getD 0 0 ≠ 0 → r.src = src) ∧
      (src.getD 0 0 = 0 →
        r.src.length = 0x100 ∧ r.src.getD 0 0 = src.getD 0 0 ∧
        (r.src.drop 1).take 0x20 =
          xor_bytes ((src.drop 1).take 0x20) (mgf1_reference hash (src.drop 0x21) 0x20) ∧
        r.src.drop 0x21 =
          xor_bytes (src.drop 0x21)
            (mgf1_reference hash
              (xor_bytes ((src.drop 1).take 0x20) (mgf1_reference hash (src.drop 0x21) 0x20))
              0xDF)) := by
  refine ⟨_, tkey_rsa_unwrap_cases hash hdig g dst dst_size src hlen, ?_, ?_⟩
  · intro h0
    rw [if_pos h0]
  · intro h0
    rw [if_neg (by rw [h0]; simp), (tkey_rsa_check_message _ _ _ _ [] _).2.2]
    have hs := unmasked_salt_length hash hdig src hlen
    have hd := unmasked_db_length hash hdig src hlen
    have ht : (src.take 1).length = 1 := by rw [List.length_take, hlen]; rfl
    refine ⟨?_, ?_, ?_, ?_⟩
    · rw [List.length_append, List.length_append, ht, hs, hd]
    · rw [List.append_assoc, List.getD_append _ _ _ _ (by rw [ht]; decide),
        List.getD_eq_getElem?_getD, List.getD_eq_getElem?_getD,
        List.getElem?_take_of_lt (by decide)]
    · rw [List.append_assoc, List.drop_left' ht, List.take_left' hs]
      rfl
    · rw [List.drop_left' (by rw [List.length_append, ht, hs])]
      rfl

/-- C25 at `toy_message`: after the call bytes 1..32 of the message are
`toy_salt` and bytes 33..255 are the data block the message was built from. -/
theorem tkey_rsa_unwrap_message_effect_witness :
    ∃ r, tkey_rsa_unwrap toy_hash toy_globals (List.replicate 0x10 0xFF) 0x10 toy_message
        0x100 = some r ∧
      r.src.length = 0x100 ∧ r.src.getD 0 0 = 0 ∧ (r.src.drop 1).take 0x20 = toy_salt ∧
      r.src.drop 0x21 = data_block toy_expected_db toy_ciphertext := by
  obtain ⟨r, hr, _, h⟩ := tkey_rsa_unwrap_message_effect toy_hash toy_hash_length toy_globals
    (List.replicate 0x10 0xFF) 0x10 toy_message toy_message_length
  obtain ⟨h1, h2, h3, h4⟩ := h (by decide)
  exact ⟨r, hr, h1, h2.trans (by decide), h3.trans (by decide), h4.trans (by decide)⟩

/-- C26: with buffers of their declared sizes (a 256-byte message, a 32-byte
expected prefix, `dst_size` bytes at `dst`, 32-byte digests), the
bounds-checked embedding of `tkey_rsa_unwrap` with `src_size = 0x100` ends
without an out-of-range access and with the result of the embedding; so does
that of `calculate_mgf1_and_xor` for `seed_size < 0xE0` on a seed of
`seed_size` and a buffer of `masked_size` bytes; and on a longer buffer the
bytes after the first `masked_size` are as they were.  Both loops end: the
functions return a value. -/
theorem tkey_indexing_in_bounds (hash : List Nat → List Nat)
    (hdig : ∀ m, (hash m).length = 0x20) :
    (∀ (g : TkeyGlobals) (dst : List Nat) (dst_size : Nat) (src : List Nat),
      (TkeyGlobals.g_tkey_expected_db_prefix g).length = 0x20 → src.length = 0x100 →
      dst.length = dst_size →
      ∃ r, tkey_rsa_unwrap_checked hash g dst dst_size src 0x100 = Except.ok r ∧
        tkey_rsa_unwrap hash g dst dst_size src 0x100 = some r ∧
        r.src.length = 0x100 ∧ r.dst.length = dst_size) ∧
    (∀ (masked : List Nat) (masked_size : Nat) (seed : List Nat) (seed_size : Nat),
      seed_size < 0xE0 → seed.length = seed_size → masked.length = masked_size →
      ∃ out, calculate_mgf1_and_xor_checked hash masked masked_size seed seed_size =
          Except.ok out ∧
        calculate_mgf1_and_xor hash masked masked_size seed seed_size = some out ∧
        out.length = masked_size) ∧
    (∀ (masked : List Nat) (masked_size : Nat) (seed : List Nat) (seed_size : Nat),
      seed_size < 0xE0 → seed_size ≤ seed.length → masked_size ≤ masked.length →
      ∃ out, calculate_mgf1_and_xor_checked hash masked masked_size seed seed_size =
          Except.ok out ∧
        calculate_mgf1_and_xor hash masked masked_size seed seed_size = some out ∧
        out.length = masked.length ∧ out.drop masked_size = masked.drop masked_size) := by
  have key : ∀ (masked : List Nat) (masked_size : Nat) (seed : List Nat) (seed_size : Nat),
      seed_size < 0xE0 → seed_size ≤ seed.length → masked_size ≤ masked.length →
      ∃ out, calculate_mgf1_and_xor_checked hash masked masked_size seed seed_size =
          Except.ok out ∧
        calculate_mgf1_and_xor hash masked masked_size seed seed_size = some out ∧
        out.length = masked.length ∧ out.drop masked_size = masked.drop masked_size := by
    intro masked masked_size seed seed_size hs hseed hm
    have e := calculate_mgf1_and_xor_eq hash masked masked_size seed seed_size hs hseed hm
    have hl : (xor_bytes (masked.take masked_size)
        (mgf1_mask hash (seed.take seed_size) masked_size)).length = masked_size := by
      rw [xor_bytes_length, mgf1_mask_length, List.length_take]
      omega
    refine ⟨_, calculate_mgf1_and_xor_checked_ok hash hdig masked masked_size seed seed_size hs
      hseed hm _ e, e, ?_, List.drop_left' hl⟩
    rw [List.length_append, hl, List.length_drop]
    omega
  refine ⟨?_, ?_, key⟩
  · intro g dst dst_size src hp hlen hdst
    obtain ⟨r, h1, h2⟩ := tkey_rsa_unwrap_checked_ok hash hdig g dst dst_size src hp hlen
      (Nat.le_of_eq hdst.symm)
    obtain ⟨l1, l2⟩ := tkey_rsa_unwrap_lengths hash hdig g dst dst_size src hlen
      (Nat.le_of_eq hdst.symm) r h2
    exact ⟨r, h1, h2, l1, l2.trans hdst⟩
  · intro masked masked_size seed seed_size hs hseed hm
    obtain ⟨out, h1, h2, h3, _⟩ := key masked masked_size seed seed_size hs
      (Nat.le_of_eq hseed.symm) (Nat.le_of_eq hm.symm)
    exact ⟨out, h1, h2, h3.trans hm⟩

/-- C26 with the toy hash, at `toy_message` and a `dst` of exactly 7 bytes (the
size of the ciphertext), and at a 40-byte buffer with a 3-byte seed. -/
theorem tkey_indexing_in_bounds_witness :
    (∃ r, tkey_rsa_unwrap_checked toy_hash toy_globals (List.replicate 7 0xFF) 7 toy_message
        0x100 = Except.ok r ∧
      tkey_rsa_unwrap toy_hash toy_globals (List.replicate 7 0xFF) 7 toy_message 0x100 =
        some r ∧
      r.src.length = 0x100 ∧ r.dst.length = 7) ∧
    (∃ out, calculate_mgf1_and_xor_checked toy_hash (List.replicate 40 0xFF) 40 [1, 2, 3] 3 =
        Except.ok out ∧
      calculate_mgf1_and_xor toy_hash (List.replicate 40 0xFF) 40 [1, 2, 3] 3 = some out ∧
      out.length = 40) :=
  ⟨(tkey_indexing_in_bounds toy_hash toy_hash_length).1 toy_globals (List.replicate 7 0xFF) 7
      toy_message (by decide) toy_message_length (by decide),
    (tkey_indexing_in_bounds toy_hash toy_hash_length).2.1 (List.replicate 40 0xFF) 40
      [1, 2, 3] 3 (by decide) (by decide) (by decide)⟩

end Titlekey
